import Mathlib

/-!
# Player controller and tiled floor of the side-scrolling demo game

A shallow embedding of `src/game/Floor.js`, `src/game/Player.js` and the parts of
`src/game/Game.js` that drive them, followed by the properties proved about them.

Modelling conventions

* JavaScript numbers are modelled by exact rationals (`ℚ`): no rounding, no `NaN`,
  no infinities. Frame counters, which the code only ever initialises to `0` and
  increments, are natural numbers.
* Two properties depend on the rounding of binary64 arithmetic: how far one tick moves
  the player, and whether the floor blocks leave a gap. For these the floor
  construction and `update` are embedded a second time with every arithmetic
  operation rounded to the nearest binary64 value (`Binary64`); these definitions carry
  the suffix `64`.
* The strings `'left'` and `'right'` are the two constructors of `Direction`.
* Object fields that are assigned once in a constructor and never written again
  (`gravity`, `baseSpeed`, `animationSpeed`, `attackSpeed`, `deathSpeed`) are
  constants.
* The rendering library is not modelled. A texture is identified by the clip it
  belongs to, its direction and its index in the ten-element array; the sprite
  keeps the three properties the controller writes (position, `scale.x`, `material.map`).
* Values produced by the browser or the rendering library (visible world size,
  persisted offsets, the projected screen position of the player) are inputs.
-/

namespace Demogame

/-! ## Shared data -/

/-- A `THREE.Vector3` with rational components. -/
structure Vec3 where
  x : ℚ
  y : ℚ
  z : ℚ
  deriving DecidableEq, Repr

/-- The direction strings `'left'` and `'right'`. -/
inductive Direction where
  | left
  | right
  deriving DecidableEq, Repr

/-! ## Binary64 arithmetic

JavaScript numbers are IEEE 754 binary64 values and every arithmetic operation returns
the binary64 value nearest to the exact result, ties going to the even significand. The
values are kept as rationals. The exponent is not bounded: overflow to `Infinity` and the
reduced precision of subnormal numbers (magnitudes above `2^1024` or below `2^-1022`) are
not modelled. -/

namespace Binary64

/-- The natural number nearest to `n / d`, the even one of the two when `n / d` lies
half-way between them. -/
def roundHalfEven (n d : ℕ) : ℕ :=
  if 2 * (n % d) < d then n / d
  else if d < 2 * (n % d) then n / d + 1
  else if (n / d) % 2 = 0 then n / d else n / d + 1

/-- Counts the halvings that bring `n` below `2`, at most `fuel` of them. -/
def log2Aux : ℕ → ℕ → ℕ
  | 0, _ => 0
  | fuel + 1, n => if n < 2 then 0 else log2Aux fuel (n / 2) + 1

/-- For `n > 0`, the `k` with `2^k ≤ n < 2^(k+1)`. -/
def log2 (n : ℕ) : ℕ := log2Aux n n

/-- For `n, d > 0`, the `k` with `2^k ≤ n / d < 2^(k+1)`. -/
def exponent (n d : ℕ) : ℤ :=
  if log2 d ≤ log2 n then
    (if d * 2 ^ (log2 n - log2 d) ≤ n then ((log2 n - log2 d : ℕ) : ℤ)
      else ((log2 n - log2 d : ℕ) : ℤ) - 1)
  else
    (if d ≤ n * 2 ^ (log2 d - log2 n) then -((log2 d - log2 n : ℕ) : ℤ)
      else -((log2 d - log2 n : ℕ) : ℤ) - 1)

/-- The magnitude of the binary64 value nearest to `n / d`, for `n, d > 0`: `n / d` is
scaled by a power of two into `[2^52, 2^53)`, rounded to a whole number (a 53-bit
significand), and scaled back. -/
def nearestMagnitude (n d : ℕ) : ℚ :=
  if 52 ≤ exponent n d then
    ((roundHalfEven n (d * 2 ^ (exponent n d - 52).toNat) * 2 ^ (exponent n d - 52).toNat : ℕ) : ℚ)
  else
    ((roundHalfEven (n * 2 ^ (52 - exponent n d).toNat) d : ℕ) : ℚ) /
      ((2 ^ (52 - exponent n d).toNat : ℕ) : ℚ)

/-- The binary64 value nearest to `q`, ties to even. -/
def nearest (q : ℚ) : ℚ :=
  if q = 0 then 0
  else if q < 0 then -nearestMagnitude q.num.natAbs q.den
  else nearestMagnitude q.num.natAbs q.den

/-- The JavaScript `a + b`. -/
def add (a b : ℚ) : ℚ := nearest (a + b)

/-- The JavaScript `a - b`. -/
def sub (a b : ℚ) : ℚ := nearest (a - b)

/-- The JavaScript `a * b`. -/
def mul (a b : ℚ) : ℚ := nearest (a * b)

/-- The JavaScript `a / b`, for `b ≠ 0`. -/
def div (a b : ℚ) : ℚ := nearest (a / b)

end Binary64

/-! ## Floor (`src/game/Floor.js`) -/

/-- A floor mesh; only its position is read by the game logic. -/
structure Block where
  position : Vec3
  deriving DecidableEq, Repr

/-- The fields of a `Floor` object. `outlineObjects` holds the positions of the
debug outline meshes. -/
structure Floor where
  blocks : List Block
  width : ℚ
  height : ℚ
  outlineObjects : List Vec3
  deriving DecidableEq, Repr

/-- What `createFloor` reads from the browser: the visible world size computed from
the camera (`worldWidth`, `worldHeight`) and the two persisted offsets
(`localStorage.getItem` followed by `parseFloat`; `none` for `null`). -/
structure FloorEnv where
  worldWidth : ℚ
  worldHeight : ℚ
  savedPositionX : Option ℚ
  savedPositionY : Option ℚ
  deriving DecidableEq, Repr

namespace Floor

/-- `Floor.toggleOutline` (Floor.js 108-137): drops the old outlines and, when its
argument `show` is set, creates one per block slightly in front of it. -/
def toggleOutline (showOutline : Bool) (f : Floor) : Floor :=
  { f with
    outlineObjects :=
      if showOutline then
        f.blocks.map fun b => { b.position with z := b.position.z + 1 / 100 }
      else [] }

/-- `blocksNeeded` of `createFloor` (Floor.js 71): `Math.ceil(worldWidth / width) + 6`. -/
def blocksNeeded (env : FloorEnv) (f : Floor) : ℤ :=
  ⌈env.worldWidth / f.width⌉ + 6

/-- `bottomPosition` of `createFloor` (Floor.js 76-78). -/
def bottomPosition (env : FloorEnv) (f : Floor) : ℚ :=
  match env.savedPositionY with
  | some y => y - f.height / 2
  | none => -env.worldHeight / 2 - 5 / 2

/-- `startX` of `createFloor` (Floor.js 79-81). -/
def startX (env : FloorEnv) : ℚ :=
  match env.savedPositionX with
  | some x => x
  | none => -env.worldWidth / 2

/-- The block created by iteration `i` of the loop of `createFloor` (Floor.js 92-96), with
exact arithmetic; `mkBlock64` is the same with binary64 rounding. -/
def mkBlock (env : FloorEnv) (f : Floor) (i : ℕ) : Block :=
  { position :=
      { x := startX env + (i : ℚ) * f.width
        y := bottomPosition env f + f.height / 2
        z := -5 } }

/-- `Floor.createFloor` (Floor.js 59-106): the loop `for (i = 0; i < blocksNeeded; i++)`
pushes one block per iteration, then the outline is reset. -/
def createFloor (env : FloorEnv) (f : Floor) : Floor :=
  toggleOutline false
    { f with
      blocks := f.blocks ++ (List.range (blocksNeeded env f).toNat).map (mkBlock env f) }

/-- The `Floor` constructor (Floor.js 4-17); texture loading has no effect on the
fields modelled here. -/
def new (env : FloorEnv) (width height : ℚ) : Floor :=
  createFloor env { blocks := [], width := width, height := height, outlineObjects := [] }

/-- The `blocksNeeded` of `createFloor` in binary64 (Floor.js 71): the quotient is
rounded; the count is a whole number, exact below `2^53`. -/
def blocksNeeded64 (env : FloorEnv) (f : Floor) : ℤ :=
  ⌈Binary64.div env.worldWidth f.width⌉ + 6

/-- The `bottomPosition` of `createFloor` in binary64 (Floor.js 76-78). -/
def bottomPosition64 (env : FloorEnv) (f : Floor) : ℚ :=
  match env.savedPositionY with
  | some y => Binary64.sub y (Binary64.div f.height 2)
  | none => Binary64.sub (Binary64.div (-env.worldHeight) 2) (5 / 2)

/-- The `startX` of `createFloor` in binary64 (Floor.js 79-81). -/
def startX64 (env : FloorEnv) : ℚ :=
  match env.savedPositionX with
  | some x => x
  | none => Binary64.div (-env.worldWidth) 2

/-- The block created by iteration `i` of the loop of `createFloor`, in binary64
(Floor.js 92-96): `xPos = startX + (i * this.width)` rounds the product and the sum. -/
def mkBlock64 (env : FloorEnv) (f : Floor) (i : ℕ) : Block :=
  { position :=
      { x := Binary64.add (startX64 env) (Binary64.mul (i : ℚ) f.width)
        y := Binary64.add (bottomPosition64 env f) (Binary64.div f.height 2)
        z := -5 } }

/-- `Floor.createFloor` in binary64 (Floor.js 59-106). -/
def createFloor64 (env : FloorEnv) (f : Floor) : Floor :=
  toggleOutline false
    { f with
      blocks := f.blocks ++ (List.range (blocksNeeded64 env f).toNat).map (mkBlock64 env f) }

/-- The `Floor` constructor in binary64 (Floor.js 4-17). -/
def new64 (env : FloorEnv) (width height : ℚ) : Floor :=
  createFloor64 env { blocks := [], width := width, height := height, outlineObjects := [] }

/-- The test of the `if` in `checkCollision` for one block (Floor.js 141-151). -/
def hits (f : Floor) (playerPosition : Vec3) (block : Block) : Bool :=
  let left := block.position.x - f.width / 2
  let right := block.position.x + f.width / 2
  let top := block.position.y + f.height / 2
  let bottom := block.position.y - f.height / 2
  decide (playerPosition.x ≥ left) && decide (playerPosition.x ≤ right) &&
    decide (playerPosition.y ≥ bottom) && decide (playerPosition.y ≤ top)

/-- The loop of `checkCollision` over the remaining blocks, returning at the first hit. -/
def checkCollisionLoop (f : Floor) (playerPosition : Vec3) : List Block → Bool
  | [] => false
  | block :: rest =>
    if hits f playerPosition block then true else checkCollisionLoop f playerPosition rest

/-- `Floor.checkCollision` (Floor.js 139-156). -/
def checkCollision (f : Floor) (playerPosition _playerVelocity : Vec3) : Bool :=
  checkCollisionLoop f playerPosition f.blocks

end Floor

/-! ## Player (`src/game/Player.js`) -/

/-- The ten-frame texture arrays loaded by `loadTextures`, without their direction. -/
inductive Clip where
  | idle
  | jump
  | walk
  | attack
  | jumpAttack
  | run
  | dead
  deriving DecidableEq, Repr

/-- One loaded texture: element `frame` of the array of `clip` for direction `dir`. -/
structure Texture where
  clip : Clip
  dir : Direction
  frame : ℕ
  deriving DecidableEq, Repr

/-- Indexing a texture array, `textures[i]`: every array holds ten textures, an index
past the end yields `undefined` (`none`). -/
def textureAt (clip : Clip) (dir : Direction) (i : ℕ) : Option Texture :=
  if i < 10 then some { clip := clip, dir := dir, frame := i } else none

/-- The properties of the `THREE.Sprite` written by the controller. -/
structure Sprite where
  position : Vec3
  scaleX : ℚ
  map : Option Texture
  deriving DecidableEq, Repr

/-- The object `this.movement`. -/
structure Movement where
  left : Bool
  right : Bool
  deriving DecidableEq, Repr

/-- The mutable fields of a `Player` object. `deathMenuShown` counts the calls this
player has made to `game.showDeathMenu()`. -/
structure Player where
  velocity : Vec3
  position : Vec3
  moveSpeed : ℚ
  isGrounded : Bool
  currentFrame : ℕ
  frameTime : ℚ
  isJumping : Bool
  isWalking : Bool
  facingRight : Bool
  lastLookedDirection : Direction
  isOnAir : Bool
  isAttacking : Bool
  attackFrame : ℕ
  attackDirection : Direction
  movement : Movement
  isRunning : Bool
  isShiftPressed : Bool
  isDead : Bool
  deathFrame : ℕ
  deathAnimationComplete : Bool
  sprite : Sprite
  deathMenuShown : ℕ
  deriving DecidableEq, Repr

/-- A `click` event; only `clientX` is read. -/
structure ClickEvent where
  clientX : ℚ
  deriving DecidableEq, Repr

namespace Player

/-- Field `gravity` (Player.js 11). -/
def gravity : ℚ := -20

/-- Field `baseSpeed` (Player.js 53). -/
def baseSpeed : ℚ := 3

/-- Field `animationSpeed` (Player.js 16). -/
def animationSpeed : ℚ := 1 / 10

/-- Field `attackSpeed` (Player.js 17). -/
def attackSpeed : ℚ := 5 / 100

/-- Field `deathSpeed` (Player.js 18). -/
def deathSpeed : ℚ := 15 / 100

/-- The `Player` constructor (Player.js 4-85), including the sprite created at the
end of `loadTextures` (Player.js 246-256). -/
def new : Player :=
  { velocity := { x := 0, y := 0, z := 0 }
    position := { x := 0, y := 2, z := -5 }
    moveSpeed := baseSpeed
    isGrounded := false
    currentFrame := 0
    frameTime := 0
    isJumping := false
    isWalking := false
    facingRight := true
    lastLookedDirection := Direction.right
    isOnAir := false
    isAttacking := false
    attackFrame := 0
    attackDirection := Direction.right
    movement := { left := false, right := false }
    isRunning := false
    isShiftPressed := false
    isDead := false
    deathFrame := 0
    deathAnimationComplete := false
    sprite :=
      { position := { x := 0, y := 2, z := -5 }
        scaleX := 3
        map := textureAt Clip.idle Direction.right 0 }
    deathMenuShown := 0 }

/-- `Player.setPosition` (Player.js 87-92); the sprite exists once the constructor
has returned. -/
def setPosition (x y z : ℚ) (s : Player) : Player :=
  let p : Vec3 := { x := x, y := y, z := z }
  { s with position := p, sprite := { s.sprite with position := p } }

/-- The `keydown` listener registered by the constructor, for a shift key
(Player.js 60-65). -/
def shiftKeyDown (s : Player) : Player :=
  { s with isShiftPressed := true, moveSpeed := baseSpeed * (13 / 10) }

/-- The `keyup` listener registered by the constructor, for a shift key
(Player.js 67-72). -/
def shiftKeyUp (s : Player) : Player :=
  { s with isShiftPressed := false, moveSpeed := baseSpeed }

/-- `this.movement[direction] = value`. -/
def setMovement (direction : Direction) (value : Bool) (m : Movement) : Movement :=
  match direction with
  | Direction.left => { m with left := value }
  | Direction.right => { m with right := value }

/-- `Player.startMoving` (Player.js 261-269). -/
def startMoving (direction : Direction) (s : Player) : Player :=
  { s with
    movement := setMovement direction true s.movement
    isWalking := true
    facingRight := decide (direction = Direction.right)
    lastLookedDirection := direction
    moveSpeed := if s.isShiftPressed then baseSpeed * (15 / 10) else baseSpeed }

/-- `Player.stopMoving` (Player.js 271-276). -/
def stopMoving (direction : Direction) (s : Player) : Player :=
  let m := setMovement direction false s.movement
  { s with
    movement := m
    isWalking := if !m.left && !m.right then false else s.isWalking }

/-- `Player.jump` (Player.js 391-399). -/
def jump (s : Player) : Player :=
  if s.isGrounded then
    { s with
      velocity := { s.velocity with y := 10 }
      isGrounded := false
      isJumping := true
      currentFrame := 0
      frameTime := 0 }
  else s

/-- `Player.handleAttack` (Player.js 401-414). `playerScreenX` is the `x` of the
value returned by `getScreenPosition()`, which the rendering library computes. -/
def handleAttack (playerScreenX : ℚ) (event : ClickEvent) (s : Player) : Player :=
  if s.isAttacking then s
  else
    let attackDirection :=
      if event.clientX < playerScreenX then Direction.left else Direction.right
    { s with
      attackDirection := attackDirection
      isAttacking := true
      attackFrame := 0
      lastLookedDirection := attackDirection }

/-- `Player.die` (Player.js 428-434). -/
def die (s : Player) : Player :=
  if s.isDead then s
  else
    { s with
      isDead := true
      deathFrame := 0
      deathAnimationComplete := false
      velocity := { x := 0, y := 0, z := 0 } }

/-- The dead branch of `update` (Player.js 279-297). -/
def updateDead (deltaTime : ℚ) (s : Player) : Player :=
  let s1 := { s with frameTime := s.frameTime + deltaTime }
  if s1.frameTime ≥ deathSpeed ∧ s1.deathAnimationComplete = false then
    let s2 :=
      { s1 with
        frameTime := 0
        sprite := { s1.sprite with map := textureAt Clip.dead s1.lastLookedDirection s1.deathFrame }
        deathFrame := s1.deathFrame + 1 }
    if s2.deathFrame ≥ 10 then
      { s2 with deathAnimationComplete := true, deathMenuShown := s2.deathMenuShown + 1 }
    else s2
  else s1

/-- The air state and horizontal movement of `update` (Player.js 299-321). -/
def updateHorizontal (isOnFloor : Bool) (s : Player) : Player :=
  let s1 := { s with isOnAir := s.isJumping || !isOnFloor }
  let s2 := { s1 with velocity := { s1.velocity with x := 0 } }
  let canMove := !s2.isAttacking || s2.isOnAir
  if canMove then
    let s3 :=
      if s2.movement.left then
        { s2 with
          velocity := { s2.velocity with x := -s2.moveSpeed }
          lastLookedDirection :=
            if !s2.isAttacking then Direction.left else s2.lastLookedDirection }
      else s2
    if s3.movement.right then
      { s3 with
        velocity := { s3.velocity with x := s3.moveSpeed }
        lastLookedDirection :=
          if !s3.isAttacking then Direction.right else s3.lastLookedDirection }
    else s3
  else s2

/-- Gravity and landing in `update` (Player.js 323-330). -/
def updateVertical (deltaTime : ℚ) (isOnFloor : Bool) (s : Player) : Player :=
  if !isOnFloor then
    { s with velocity := { s.velocity with y := s.velocity.y + gravity * deltaTime } }
  else if s.velocity.y < 0 then
    { s with
      velocity := { s.velocity with y := 0 }
      isGrounded := true
      isJumping := false }
  else s

/-- The position step and the sprite position and flip in `update` (Player.js 332-347),
with exact arithmetic; `updatePosition64` is the same with binary64 rounding. -/
def updatePosition (deltaTime : ℚ) (s : Player) : Player :=
  let position : Vec3 :=
    { x := s.position.x + s.velocity.x * deltaTime
      y := s.position.y + s.velocity.y * deltaTime
      z := s.position.z + s.velocity.z * deltaTime }
  let facingDirection : Bool :=
    if s.isAttacking then decide (s.attackDirection = Direction.right)
    else decide (s.lastLookedDirection = Direction.right)
  { s with
    position := position
    sprite :=
      { s.sprite with
        position := position
        scaleX := |s.sprite.scaleX| * (if facingDirection then 1 else -1) } }

/-- The animation step of `update` (Player.js 349-388). -/
def updateAnimation (deltaTime : ℚ) (s : Player) : Player :=
  let s1 := { s with frameTime := s.frameTime + deltaTime }
  if s1.frameTime ≥ (if s1.isAttacking then attackSpeed else animationSpeed) then
    let s2 := { s1 with frameTime := 0 }
    if s2.isAttacking then
      let s3 :=
        { s2 with
          sprite :=
            { s2.sprite with
              map :=
                textureAt (if s2.isOnAir then Clip.jumpAttack else Clip.attack)
                  s2.attackDirection s2.attackFrame }
          attackFrame := s2.attackFrame + 1 }
      if s3.attackFrame ≥ 10 then { s3 with isAttacking := false, attackFrame := 0 } else s3
    else if s2.isJumping then
      { s2 with
        sprite :=
          { s2.sprite with map := textureAt Clip.jump s2.lastLookedDirection s2.currentFrame }
        currentFrame := (s2.currentFrame + 1) % 10 }
    else if s2.movement.left || s2.movement.right then
      { s2 with
        sprite :=
          { s2.sprite with
            map :=
              textureAt (if s2.isShiftPressed then Clip.run else Clip.walk)
                s2.lastLookedDirection s2.currentFrame }
        currentFrame := (s2.currentFrame + 1) % 10 }
    else
      { s2 with
        sprite :=
          { s2.sprite with map := textureAt Clip.idle s2.lastLookedDirection s2.currentFrame }
        currentFrame := (s2.currentFrame + 1) % 10 }
  else s1

/-- `Player.update` (Player.js 278-389). -/
def update (deltaTime : ℚ) (isOnFloor : Bool) (s : Player) : Player :=
  if s.isDead then updateDead deltaTime s
  else
    updateAnimation deltaTime
      (updatePosition deltaTime (updateVertical deltaTime isOnFloor (updateHorizontal isOnFloor s)))

/-- Field `animationSpeed` (Player.js 16): the binary64 value of the literal `0.1`. -/
def animationSpeed64 : ℚ := Binary64.nearest (1 / 10)

/-- Field `attackSpeed` (Player.js 17): the binary64 value of the literal `0.05`. -/
def attackSpeed64 : ℚ := Binary64.nearest (5 / 100)

/-- Field `deathSpeed` (Player.js 18): the binary64 value of the literal `0.15`. -/
def deathSpeed64 : ℚ := Binary64.nearest (15 / 100)

/-- The dead branch of `update` in binary64 (Player.js 279-297). -/
def updateDead64 (deltaTime : ℚ) (s : Player) : Player :=
  let s1 := { s with frameTime := Binary64.add s.frameTime deltaTime }
  if s1.frameTime ≥ deathSpeed64 ∧ s1.deathAnimationComplete = false then
    let s2 :=
      { s1 with
        frameTime := 0
        sprite := { s1.sprite with map := textureAt Clip.dead s1.lastLookedDirection s1.deathFrame }
        deathFrame := s1.deathFrame + 1 }
    if s2.deathFrame ≥ 10 then
      { s2 with deathAnimationComplete := true, deathMenuShown := s2.deathMenuShown + 1 }
    else s2
  else s1

/-- Gravity and landing in `update`, in binary64 (Player.js 323-330): the product
`gravity * deltaTime` and the sum are rounded. -/
def updateVertical64 (deltaTime : ℚ) (isOnFloor : Bool) (s : Player) : Player :=
  if !isOnFloor then
    { s with
      velocity :=
        { s.velocity with y := Binary64.add s.velocity.y (Binary64.mul gravity deltaTime) } }
  else if s.velocity.y < 0 then
    { s with
      velocity := { s.velocity with y := 0 }
      isGrounded := true
      isJumping := false }
  else s

/-- The position step and the sprite position and flip in `update`, in binary64
(Player.js 332-347): each product `velocity * deltaTime` is rounded, and so is each sum
made by `position.add`. -/
def updatePosition64 (deltaTime : ℚ) (s : Player) : Player :=
  let position : Vec3 :=
    { x := Binary64.add s.position.x (Binary64.mul s.velocity.x deltaTime)
      y := Binary64.add s.position.y (Binary64.mul s.velocity.y deltaTime)
      z := Binary64.add s.position.z (Binary64.mul s.velocity.z deltaTime) }
  let facingDirection : Bool :=
    if s.isAttacking then decide (s.attackDirection = Direction.right)
    else decide (s.lastLookedDirection = Direction.right)
  { s with
    position := position
    sprite :=
      { s.sprite with
        position := position
        scaleX := Binary64.mul |s.sprite.scaleX| (if facingDirection then 1 else -1) } }

/-- The animation step of `update` in binary64 (Player.js 349-388). -/
def updateAnimation64 (deltaTime : ℚ) (s : Player) : Player :=
  let s1 := { s with frameTime := Binary64.add s.frameTime deltaTime }
  if s1.frameTime ≥ (if s1.isAttacking then attackSpeed64 else animationSpeed64) then
    let s2 := { s1 with frameTime := 0 }
    if s2.isAttacking then
      let s3 :=
        { s2 with
          sprite :=
            { s2.sprite with
              map :=
                textureAt (if s2.isOnAir then Clip.jumpAttack else Clip.attack)
                  s2.attackDirection s2.attackFrame }
          attackFrame := s2.attackFrame + 1 }
      if s3.attackFrame ≥ 10 then { s3 with isAttacking := false, attackFrame := 0 } else s3
    else if s2.isJumping then
      { s2 with
        sprite :=
          { s2.sprite with map := textureAt Clip.jump s2.lastLookedDirection s2.currentFrame }
        currentFrame := (s2.currentFrame + 1) % 10 }
    else if s2.movement.left || s2.movement.right then
      { s2 with
        sprite :=
          { s2.sprite with
            map :=
              textureAt (if s2.isShiftPressed then Clip.run else Clip.walk)
                s2.lastLookedDirection s2.currentFrame }
        currentFrame := (s2.currentFrame + 1) % 10 }
    else
      { s2 with
        sprite :=
          { s2.sprite with map := textureAt Clip.idle s2.lastLookedDirection s2.currentFrame }
        currentFrame := (s2.currentFrame + 1) % 10 }
  else s1

/-- `Player.update` in binary64 (Player.js 278-389). The horizontal stage does no
rounded arithmetic. -/
def update64 (deltaTime : ℚ) (isOnFloor : Bool) (s : Player) : Player :=
  if s.isDead then updateDead64 deltaTime s
  else
    updateAnimation64 deltaTime
      (updatePosition64 deltaTime
        (updateVertical64 deltaTime isOnFloor (updateHorizontal isOnFloor s)))

/-- Whether this call of `update` calls `game.showDeathMenu()`. -/
def raisesDeathComplete (deltaTime : ℚ) (isOnFloor : Bool) (s : Player) : Bool :=
  decide ((update deltaTime isOnFloor s).deathMenuShown ≠ s.deathMenuShown)

/-- The operations other code invokes on a player. -/
inductive Op where
  | update (deltaTime : ℚ) (isOnFloor : Bool)
  | jump
  | startMoving (direction : Direction)
  | stopMoving (direction : Direction)
  | handleAttack (playerScreenX : ℚ) (event : ClickEvent)
  | die
  | shiftKeyDown
  | shiftKeyUp
  deriving DecidableEq, Repr

/-- Performs one operation. -/
def step (s : Player) : Op → Player
  | Op.update deltaTime isOnFloor => update deltaTime isOnFloor s
  | Op.jump => jump s
  | Op.startMoving direction => startMoving direction s
  | Op.stopMoving direction => stopMoving direction s
  | Op.handleAttack playerScreenX event => handleAttack playerScreenX event s
  | Op.die => die s
  | Op.shiftKeyDown => shiftKeyDown s
  | Op.shiftKeyUp => shiftKeyUp s

/-- Performs a sequence of operations, first to last. -/
def run (s : Player) (ops : List Op) : Player :=
  ops.foldl step s

/-- Calls `update` once per element of `floor`, with the same `deltaTime` and the
listed `isOnFloor` values, first to last. -/
def updates (deltaTime : ℚ) (floor : List Bool) (s : Player) : Player :=
  floor.foldl (fun p isOnFloor => update deltaTime isOnFloor p) s

/-- The clip precedence in the words of the specification: Dead, then Attacking (the
jump-attack clip when airborne, else the ground-attack clip), then Jumping, then Run
(shift held) or Walk when a movement flag is set, then Idle. Stated for comparison with
the texture `update` selects. -/
def specClipPrecedence (dead attacking airborne jumping moving shiftHeld : Bool) : Clip :=
  if dead then Clip.dead
  else if attacking then (if airborne then Clip.jumpAttack else Clip.attack)
  else if jumping then Clip.jump
  else if moving then (if shiftHeld then Clip.run else Clip.walk)
  else Clip.idle

/-- The index with which this call of `update` reads a texture array, if it reads one:
`deathFrame` in the dead branch (Player.js 288), `attackFrame` during an attack
(Player.js 360), `currentFrame` otherwise (Player.js 371, 379, 385). -/
def lookupIndex (deltaTime : ℚ) (s : Player) : Option ℕ :=
  if s.isDead then
    if s.frameTime + deltaTime ≥ deathSpeed ∧ s.deathAnimationComplete = false then
      some s.deathFrame
    else none
  else if s.frameTime + deltaTime ≥ (if s.isAttacking then attackSpeed else animationSpeed) then
    some (if s.isAttacking then s.attackFrame else s.currentFrame)
  else none

/-- Calls `update` once per element of `ticks`, with the listed `deltaTime` and
`isOnFloor` of each, first to last. -/
def updatesWith (ticks : List (ℚ × Bool)) (s : Player) : Player :=
  ticks.foldl (fun p t => update t.1 t.2 p) s

end Player

/-! ## Game (`src/game/Game.js`) -/

/-- The fields of a `Game` object that the controller and the floor interact with. -/
structure Game where
  floor : Floor
  player : Player
  isPaused : Bool
  deathMenu : Bool
  deriving DecidableEq, Repr

namespace Game

/-- `Game.restartGame` (Game.js 435-466): the floor and the player are constructed
anew, nothing of the old ones is kept. -/
def restartGame (env : FloorEnv) (g : Game) : Game :=
  { g with
    deathMenu := false
    floor := Floor.new env 3 (5 / 2)
    player := Player.setPosition 0 2 (-5) Player.new
    isPaused := false }

/-- The body of `Game.animate` for one frame with elapsed time `deltaTime`
(Game.js 271-284); a call to `showDeathMenu` made by the player sets `isPaused`
and opens the death menu (Game.js 392-433). -/
def animate (deltaTime : ℚ) (g : Game) : Game :=
  if !g.isPaused then
    let isOnFloor := g.floor.checkCollision g.player.position g.player.velocity
    let player := g.player.update deltaTime isOnFloor
    if g.player.raisesDeathComplete deltaTime isOnFloor then
      { g with player := player, isPaused := true, deathMenu := true }
    else { g with player := player }
  else g

end Game

/-! ## Properties of binary64 rounding -/

namespace Binary64

theorem log2Aux_spec (fuel : ℕ) : ∀ n : ℕ, 0 < n → n ≤ fuel → 2 ^ log2Aux fuel n ≤ n := by
  induction fuel with
  | zero =>
    intro n hn hf
    omega
  | succ fuel ih =>
    intro n hn hf
    unfold log2Aux
    by_cases h2 : n < 2
    · rw [if_pos h2]
      simpa using hn
    · rw [if_neg h2]
      have h := ih (n / 2) (by omega) (by omega)
      rw [pow_succ]
      omega

theorem log2_le (n : ℕ) (hn : 0 < n) : 2 ^ log2 n ≤ n :=
  log2Aux_spec n n hn (le_refl n)

theorem log2Aux_lt (fuel : ℕ) : ∀ n : ℕ, n ≤ fuel → n < 2 ^ (log2Aux fuel n + 1) := by
  induction fuel with
  | zero =>
    intro n hf
    have : n = 0 := by omega
    subst this
    simp
  | succ fuel ih =>
    intro n hf
    unfold log2Aux
    by_cases h2 : n < 2
    · rw [if_pos h2]
      simpa using h2
    · rw [if_neg h2]
      have h := ih (n / 2) (by omega)
      rw [pow_succ]
      omega

theorem lt_log2 (n : ℕ) : n < 2 ^ (log2 n + 1) :=
  log2Aux_lt n n (le_refl n)


theorem exponent_le (n d : ℕ) (hn : 0 < n) (hd : 0 < d) :
    (2 : ℚ) ^ exponent n d ≤ (n : ℚ) / (d : ℚ) := by
  have ha := log2_le n hn
  have hb := lt_log2 d
  have hdQ : (0 : ℚ) < (d : ℚ) := by exact_mod_cast hd
  rw [le_div_iff₀ hdQ]
  unfold exponent
  by_cases hba : log2 d ≤ log2 n
  · rw [if_pos hba]
    have hsplit : 2 ^ log2 n = 2 ^ (log2 n - log2 d) * 2 ^ log2 d := by
      rw [← pow_add, Nat.sub_add_cancel hba]
    by_cases h : d * 2 ^ (log2 n - log2 d) ≤ n
    · rw [if_pos h, zpow_natCast]
      have hQ : ((d * 2 ^ (log2 n - log2 d) : ℕ) : ℚ) ≤ (n : ℚ) := by exact_mod_cast h
      push_cast at hQ
      linarith
    · rw [if_neg h, zpow_sub_one₀ (by norm_num), zpow_natCast]
      have hN : 2 ^ (log2 n - log2 d) * d ≤ 2 * n := by
        have h1 : 2 ^ (log2 n - log2 d) * d ≤ 2 ^ (log2 n - log2 d) * 2 ^ (log2 d + 1) :=
          Nat.mul_le_mul_left _ hb.le
        have h2 : 2 ^ (log2 n - log2 d) * 2 ^ (log2 d + 1) = 2 * 2 ^ log2 n := by
          rw [hsplit, pow_succ]
          ring
        omega
      have hQ : ((2 ^ (log2 n - log2 d) * d : ℕ) : ℚ) ≤ ((2 * n : ℕ) : ℚ) := by exact_mod_cast hN
      push_cast at hQ
      have : (2 : ℚ) ^ (log2 n - log2 d) * 2⁻¹ * (d : ℚ) =
          ((2 : ℚ) ^ (log2 n - log2 d) * (d : ℚ)) / 2 := by ring
      rw [this]
      linarith
  · rw [if_neg hba]
    have hab : log2 n ≤ log2 d := by omega
    have hsplit : 2 ^ log2 d = 2 ^ (log2 d - log2 n) * 2 ^ log2 n := by
      rw [← pow_add, Nat.sub_add_cancel hab]
    have hpos : (0 : ℚ) < (2 : ℚ) ^ (log2 d - log2 n) := by positivity
    by_cases h : d ≤ n * 2 ^ (log2 d - log2 n)
    · rw [if_pos h, zpow_neg, zpow_natCast]
      have hQ : ((d : ℕ) : ℚ) ≤ ((n * 2 ^ (log2 d - log2 n) : ℕ) : ℚ) := by exact_mod_cast h
      push_cast at hQ
      rw [inv_mul_le_iff₀ hpos]
      linarith
    · rw [if_neg h, zpow_sub_one₀ (by norm_num), zpow_neg, zpow_natCast]
      have hN : d ≤ 2 * (2 ^ (log2 d - log2 n) * n) := by
        have h1 : 2 ^ (log2 d - log2 n) * 2 ^ log2 n ≤ 2 ^ (log2 d - log2 n) * n :=
          Nat.mul_le_mul_left _ ha
        have h2 : 2 ^ (log2 d + 1) = 2 * 2 ^ log2 d := by
          rw [pow_succ]
          ring
        omega
      have hQ : ((d : ℕ) : ℚ) ≤ ((2 * (2 ^ (log2 d - log2 n) * n) : ℕ) : ℚ) := by
        exact_mod_cast hN
      push_cast at hQ
      have h2pos : (0 : ℚ) < (2 : ℚ) ^ (log2 d - log2 n) * 2 := by positivity
      have : ((2 : ℚ) ^ (log2 d - log2 n))⁻¹ * 2⁻¹ * (d : ℚ) =
          (d : ℚ) / ((2 : ℚ) ^ (log2 d - log2 n) * 2) := by
        field_simp
      rw [this, div_le_iff₀ h2pos]
      linarith


theorem roundHalfEven_error (n d : ℕ) (hd : 0 < d) :
    |((roundHalfEven n d : ℕ) : ℚ) - (n : ℚ) / (d : ℚ)| ≤ 1 / 2 := by
  have hdQ : (0 : ℚ) < (d : ℚ) := by exact_mod_cast hd
  have hsplit : (n : ℚ) = (d : ℚ) * ((n / d : ℕ) : ℚ) + ((n % d : ℕ) : ℚ) := by
    exact_mod_cast (Nat.div_add_mod n d).symm
  have hx : (n : ℚ) / (d : ℚ) = ((n / d : ℕ) : ℚ) + ((n % d : ℕ) : ℚ) / (d : ℚ) := by
    rw [hsplit]
    field_simp
    ring
  have hr0 : (0 : ℚ) ≤ ((n % d : ℕ) : ℚ) / (d : ℚ) := by positivity
  rw [hx, abs_le]
  unfold roundHalfEven
  by_cases h1 : 2 * (n % d) < d
  · rw [if_pos h1]
    have hQ : (2 : ℚ) * ((n % d : ℕ) : ℚ) < (d : ℚ) := by exact_mod_cast h1
    have hle : ((n % d : ℕ) : ℚ) / (d : ℚ) ≤ 1 / 2 := by
      rw [div_le_iff₀ hdQ]
      linarith
    constructor <;> linarith
  · rw [if_neg h1]
    have hge : 1 / 2 ≤ ((n % d : ℕ) : ℚ) / (d : ℚ) := by
      have hQ : (d : ℚ) ≤ (2 : ℚ) * ((n % d : ℕ) : ℚ) := by exact_mod_cast (not_lt.1 h1)
      rw [le_div_iff₀ hdQ]
      linarith
    have hlt : ((n % d : ℕ) : ℚ) / (d : ℚ) ≤ 1 := by
      have hQ : ((n % d : ℕ) : ℚ) ≤ (d : ℚ) := by exact_mod_cast (Nat.mod_lt n hd).le
      rw [div_le_iff₀ hdQ]
      linarith
    by_cases h2 : d < 2 * (n % d)
    · rw [if_pos h2]
      push_cast
      constructor <;> linarith
    · rw [if_neg h2]
      have heq : ((n % d : ℕ) : ℚ) / (d : ℚ) = 1 / 2 := by
        have hN : d = 2 * (n % d) := by omega
        have hQ : (d : ℚ) = (2 : ℚ) * ((n % d : ℕ) : ℚ) := by exact_mod_cast hN
        rw [div_eq_iff hdQ.ne.symm]
        linarith
      by_cases h3 : (n / d) % 2 = 0
      · rw [if_pos h3]
        constructor <;> linarith
      · rw [if_neg h3]
        push_cast
        constructor <;> linarith

theorem nearestMagnitude_error (n d : ℕ) (hn : 0 < n) (hd : 0 < d) :
    |nearestMagnitude n d - (n : ℚ) / (d : ℚ)| ≤ (n : ℚ) / (d : ℚ) / 2 ^ 53 := by
  have hE := exponent_le n d hn hd
  have hdQ : (0 : ℚ) < (d : ℚ) := by exact_mod_cast hd
  unfold nearestMagnitude
  by_cases h52 : 52 ≤ exponent n d
  · rw [if_pos h52]
    obtain ⟨j, hj⟩ := Int.eq_ofNat_of_zero_le (sub_nonneg.2 h52)
    have hjE : exponent n d = (j : ℤ) + 52 := by omega
    rw [hj, Int.toNat_ofNat]
    have hpos : (0 : ℚ) < (2 : ℚ) ^ j := by positivity
    have hR := roundHalfEven_error n (d * 2 ^ j) (by positivity)
    rw [hjE, zpow_add₀ (by norm_num), zpow_natCast] at hE
    have hE2 : (2 : ℚ) ^ j * 2 ^ 52 ≤ (n : ℚ) / (d : ℚ) := by
      have : (2 : ℚ) ^ (52 : ℤ) = 2 ^ 52 := by norm_num
      rw [this] at hE
      exact hE
    have hscaled : ((n : ℚ) / ((d * 2 ^ j : ℕ) : ℚ)) = (n : ℚ) / (d : ℚ) / 2 ^ j := by
      push_cast
      field_simp
    rw [hscaled] at hR
    have hmul : (((roundHalfEven n (d * 2 ^ j) * 2 ^ j : ℕ) : ℚ)) - (n : ℚ) / (d : ℚ) =
        (((roundHalfEven n (d * 2 ^ j) : ℕ) : ℚ) - (n : ℚ) / (d : ℚ) / 2 ^ j) * 2 ^ j := by
      push_cast
      field_simp
      ring
    rw [hmul, abs_mul, abs_of_pos hpos]
    calc |((roundHalfEven n (d * 2 ^ j) : ℕ) : ℚ) - (n : ℚ) / (d : ℚ) / 2 ^ j| * 2 ^ j
        ≤ 1 / 2 * 2 ^ j := mul_le_mul_of_nonneg_right hR hpos.le
      _ = (2 : ℚ) ^ j * 2 ^ 52 / 2 ^ 53 := by norm_num; ring
      _ ≤ (n : ℚ) / (d : ℚ) / 2 ^ 53 := div_le_div_of_nonneg_right hE2 (by positivity)
  · rw [if_neg h52]
    obtain ⟨j, hj⟩ := Int.eq_ofNat_of_zero_le (show (0 : ℤ) ≤ 52 - exponent n d by omega)
    have hjE : exponent n d = 52 - (j : ℤ) := by omega
    rw [hj, Int.toNat_ofNat]
    have hpos : (0 : ℚ) < (2 : ℚ) ^ j := by positivity
    have hR := roundHalfEven_error (n * 2 ^ j) d hd
    rw [hjE, zpow_sub₀ (by norm_num), zpow_natCast] at hE
    have hE2 : (2 : ℚ) ^ 52 / 2 ^ j ≤ (n : ℚ) / (d : ℚ) := by
      have : (2 : ℚ) ^ (52 : ℤ) = 2 ^ 52 := by norm_num
      rw [this] at hE
      exact hE
    have hscaled : (((n * 2 ^ j : ℕ) : ℚ) / (d : ℚ)) = (n : ℚ) / (d : ℚ) * 2 ^ j := by
      push_cast
      field_simp
    rw [hscaled] at hR
    have hdiv : ((roundHalfEven (n * 2 ^ j) d : ℕ) : ℚ) / ((2 ^ j : ℕ) : ℚ) - (n : ℚ) / (d : ℚ) =
        (((roundHalfEven (n * 2 ^ j) d : ℕ) : ℚ) - (n : ℚ) / (d : ℚ) * 2 ^ j) / 2 ^ j := by
      push_cast
      field_simp
      ring
    rw [hdiv, abs_div, abs_of_pos hpos]
    calc |((roundHalfEven (n * 2 ^ j) d : ℕ) : ℚ) - (n : ℚ) / (d : ℚ) * 2 ^ j| / 2 ^ j
        ≤ 1 / 2 / 2 ^ j := div_le_div_of_nonneg_right hR hpos.le
      _ = (2 : ℚ) ^ 52 / 2 ^ j / 2 ^ 53 := by field_simp; ring
      _ ≤ (n : ℚ) / (d : ℚ) / 2 ^ 53 := div_le_div_of_nonneg_right hE2 (by positivity)

/-- The relative rounding error of a binary64 operation is at most `2^-53`. -/
theorem nearest_error (q : ℚ) : |nearest q - q| ≤ |q| / 2 ^ 53 := by
  unfold nearest
  by_cases h0 : q = 0
  · rw [if_pos h0, h0]
    simp
  · rw [if_neg h0]
    have hnum : q.num ≠ 0 := by simpa using h0
    have hn : 0 < q.num.natAbs := Int.natAbs_pos.2 hnum
    have hM := nearestMagnitude_error q.num.natAbs q.den hn q.den_pos
    have habs : ((q.num.natAbs : ℕ) : ℚ) / (q.den : ℚ) = |q| := by
      have hq : q = (q.num : ℚ) / (q.den : ℚ) := (Rat.num_div_den q).symm
      have hden : (0 : ℚ) < (q.den : ℚ) := by exact_mod_cast q.den_pos
      conv_rhs => rw [hq]
      rw [abs_div, abs_of_pos hden]
      congr 1
      rw [Nat.cast_natAbs]
      push_cast
      rfl
    rw [habs] at hM
    by_cases hneg : q < 0
    · rw [if_pos hneg]
      have : |q| = -q := abs_of_neg hneg
      rw [this] at hM ⊢
      have h2 : -nearestMagnitude q.num.natAbs q.den - q =
          -(nearestMagnitude q.num.natAbs q.den - -q) := by ring
      rw [h2, abs_neg]
      exact hM
    · rw [if_neg hneg]
      have : |q| = q := abs_of_nonneg (not_lt.1 hneg)
      rw [this] at hM ⊢
      exact hM


/-- Known binary64 values: the literals `0.1`, `0.3` and `1.1`, some values that are
exact, and two ties, which go to the even significand. -/
theorem nearest_examples :
    nearest (1 / 10) = 3602879701896397 / 2 ^ 55 ∧
      nearest (3 / 10) = 5404319552844595 / 2 ^ 54 ∧
      nearest (11 / 10) = 2476979795053773 / 2 ^ 51 ∧
      nearest 3 = 3 ∧ nearest (-5) = -5 ∧ nearest (1 / 2) = 1 / 2 ∧
      nearest (2 ^ 53 + 1) = 2 ^ 53 ∧ nearest (2 ^ 53 + 3) = 2 ^ 53 + 4 := by
  decide!

theorem nearest_bounds (q : ℚ) :
    q - |q| / 2 ^ 53 ≤ nearest q ∧ nearest q ≤ q + |q| / 2 ^ 53 := by
  have h := abs_le.1 (nearest_error q)
  constructor <;> linarith [h.1, h.2]

theorem nearest_nonneg (q : ℚ) (hq : 0 ≤ q) : 0 ≤ nearest q := by
  have h := (nearest_bounds q).1
  rw [abs_of_nonneg hq] at h
  have h2 : q / 2 ^ 53 ≤ q := div_le_self hq (by norm_num)
  linarith

end Binary64

/-! ## Properties of the floor -/

namespace Floor

theorem hits_iff (f : Floor) (p : Vec3) (b : Block) :
    hits f p b = true ↔
      b.position.x - f.width / 2 ≤ p.x ∧ p.x ≤ b.position.x + f.width / 2 ∧
        b.position.y - f.height / 2 ≤ p.y ∧ p.y ≤ b.position.y + f.height / 2 := by
  simp [hits, and_assoc]

theorem checkCollisionLoop_iff (f : Floor) (p : Vec3) (bs : List Block) :
    checkCollisionLoop f p bs = true ↔ ∃ b ∈ bs, hits f p b = true := by
  induction bs with
  | nil => simp [checkCollisionLoop]
  | cons b rest ih =>
    by_cases hb : hits f p b = true
    · simp [checkCollisionLoop, hb]
    · simp [checkCollisionLoop, hb, ih]

end Floor

/-- C1: `checkCollision(p, v)` is true exactly when `p` lies in the closed rectangle of
some block (all four bounds inclusive); the answer is the same for every velocity,
and it is false when the floor has no block. -/
theorem checkCollision_iff_in_some_block (f : Floor) (p v : Vec3) :
    (f.checkCollision p v = true ↔
        ∃ b ∈ f.blocks,
          b.position.x - f.width / 2 ≤ p.x ∧ p.x ≤ b.position.x + f.width / 2 ∧
            b.position.y - f.height / 2 ≤ p.y ∧ p.y ≤ b.position.y + f.height / 2) ∧
      (∀ w : Vec3, f.checkCollision p w = f.checkCollision p v) ∧
      ({ f with blocks := [] } : Floor).checkCollision p v = false := by
  refine ⟨?_, fun w => rfl, rfl⟩
  unfold Floor.checkCollision
  rw [Floor.checkCollisionLoop_iff]
  constructor
  · rintro ⟨b, hb, hh⟩
    exact ⟨b, hb, (Floor.hits_iff f p b).1 hh⟩
  · rintro ⟨b, hb, hh⟩
    exact ⟨b, hb, (Floor.hits_iff f p b).2 hh⟩

namespace Floor

theorem new_blocks (env : FloorEnv) (width height : ℚ) :
    (Floor.new env width height).blocks =
      (List.range (⌈env.worldWidth / width⌉ + 6).toNat).map
        (mkBlock env { blocks := [], width := width, height := height, outlineObjects := [] }) := by
  simp [Floor.new, createFloor, toggleOutline, blocksNeeded]

theorem new_blocks_length (env : FloorEnv) (width height : ℚ) :
    (Floor.new env width height).blocks.length = (⌈env.worldWidth / width⌉ + 6).toNat := by
  simp [new_blocks]

theorem new_blocks_getElem? (env : FloorEnv) (width height : ℚ) (i : ℕ)
    (hi : i < (⌈env.worldWidth / width⌉ + 6).toNat) :
    (Floor.new env width height).blocks[i]? =
      some (mkBlock env
        { blocks := [], width := width, height := height, outlineObjects := [] } i) := by
  simp [new_blocks, List.getElem?_map, List.getElem?_range hi]

theorem blocksNeeded_nonneg (W s : ℚ) (hW : 0 < W) (hs : 0 < s) : 0 ≤ ⌈W / s⌉ + 6 := by
  have h : 0 ≤ ⌈W / s⌉ := Int.ceil_nonneg (div_pos hW hs).le
  omega

end Floor

/-- With exact arithmetic in place of binary64, and no persisted offset: for a visible
width `W > 0` and a block width `s > 0` the floor has `ceil(W/s) + 6` blocks, block `i` is
centred at `x = -W/2 + i*s`, `N*s ≥ W`, every `x` in `[-W/2, W/2]` lies in the closed
horizontal extent of some block, and each block ends where the next one begins. -/
theorem Floor.new_covers_with_exact_arithmetic (env : FloorEnv) (width height : ℚ)
    (hX : env.savedPositionX = none) (hY : env.savedPositionY = none)
    (hW : 0 < env.worldWidth) (hs : 0 < width) :
    ((Floor.new env width height).blocks.length : ℤ) = ⌈env.worldWidth / width⌉ + 6 ∧
      (∀ i : ℕ, i < (Floor.new env width height).blocks.length →
        (Floor.new env width height).blocks[i]? =
          some { position :=
                  { x := -env.worldWidth / 2 + (i : ℚ) * width
                    y := -env.worldHeight / 2 - 5 / 2 + height / 2
                    z := -5 } }) ∧
      env.worldWidth ≤ ((Floor.new env width height).blocks.length : ℚ) * width ∧
      (∀ x : ℚ, -env.worldWidth / 2 ≤ x → x ≤ env.worldWidth / 2 →
        ∃ b ∈ (Floor.new env width height).blocks,
          b.position.x - width / 2 ≤ x ∧ x ≤ b.position.x + width / 2) ∧
      (∀ (i : ℕ) (b c : Block), (Floor.new env width height).blocks[i]? = some b →
        (Floor.new env width height).blocks[i + 1]? = some c →
          b.position.x + width / 2 = c.position.x - width / 2) := by
  have hN := Floor.blocksNeeded_nonneg env.worldWidth width hW hs
  have hlen := Floor.new_blocks_length env width height
  have hget : ∀ i : ℕ, i < (Floor.new env width height).blocks.length →
      (Floor.new env width height).blocks[i]? =
        some { position :=
                { x := -env.worldWidth / 2 + (i : ℚ) * width
                  y := -env.worldHeight / 2 - 5 / 2 + height / 2
                  z := -5 } } := by
    intro i hi
    rw [hlen] at hi
    rw [Floor.new_blocks_getElem? env width height i hi]
    simp [Floor.mkBlock, Floor.startX, Floor.bottomPosition, hX, hY]
  have hlenZ : ((Floor.new env width height).blocks.length : ℤ) =
      ⌈env.worldWidth / width⌉ + 6 := by
    rw [hlen, Int.toNat_of_nonneg hN]
  have hlenQ : ((Floor.new env width height).blocks.length : ℚ) =
      (⌈env.worldWidth / width⌉ : ℚ) + 6 := by
    have := congrArg (fun z : ℤ => (z : ℚ)) hlenZ
    simpa using this
  have hceil : env.worldWidth / width ≤ (⌈env.worldWidth / width⌉ : ℚ) := Int.le_ceil _
  refine ⟨hlenZ, hget, ?_, ?_, ?_⟩
  · rw [hlenQ]
    have h1 : env.worldWidth = env.worldWidth / width * width :=
      (div_mul_cancel₀ _ hs.ne.symm).symm
    have h2 : env.worldWidth / width * width ≤ ((⌈env.worldWidth / width⌉ : ℚ) + 6) * width :=
      mul_le_mul_of_nonneg_right (by linarith) hs.le
    linarith
  · intro x hlo hhi
    have ht0 : 0 ≤ (x + env.worldWidth / 2) / width := div_nonneg (by linarith) hs.le
    have htW : (x + env.worldWidth / 2) / width ≤ env.worldWidth / width :=
      div_le_div_of_nonneg_right (by linarith) hs.le
    have hk0 : 0 ≤ ⌊(x + env.worldWidth / 2) / width + 1 / 2⌋ := Int.floor_nonneg.2 (by linarith)
    have hkle : (⌊(x + env.worldWidth / 2) / width + 1 / 2⌋ : ℚ) ≤
        (x + env.worldWidth / 2) / width + 1 / 2 := Int.floor_le _
    have hklt : (x + env.worldWidth / 2) / width + 1 / 2 <
        (⌊(x + env.worldWidth / 2) / width + 1 / 2⌋ : ℚ) + 1 := Int.lt_floor_add_one _
    have hkN : ⌊(x + env.worldWidth / 2) / width + 1 / 2⌋ < ⌈env.worldWidth / width⌉ + 6 := by
      have : (⌊(x + env.worldWidth / 2) / width + 1 / 2⌋ : ℚ) <
          ((⌈env.worldWidth / width⌉ + 6 : ℤ) : ℚ) := by
        push_cast
        linarith
      exact_mod_cast this
    obtain ⟨n, hn⟩ := Int.eq_ofNat_of_zero_le hk0
    have hnlt : n < (Floor.new env width height).blocks.length := by
      rw [hlen]
      omega
    have hnQ : (n : ℚ) = (⌊(x + env.worldWidth / 2) / width + 1 / 2⌋ : ℚ) := by
      rw [hn]
      simp
    have hmem := List.getElem?_mem (hget n hnlt)
    refine ⟨_, hmem, ?_, ?_⟩
    · show -env.worldWidth / 2 + (n : ℚ) * width - width / 2 ≤ x
      have h3 : ((n : ℚ) - 1 / 2) * width ≤ (x + env.worldWidth / 2) / width * width :=
        mul_le_mul_of_nonneg_right (by linarith) hs.le
      have h4 : (x + env.worldWidth / 2) / width * width = x + env.worldWidth / 2 :=
        div_mul_cancel₀ _ hs.ne.symm
      linarith
    · show x ≤ -env.worldWidth / 2 + (n : ℚ) * width + width / 2
      have h3 : (x + env.worldWidth / 2) / width * width ≤ ((n : ℚ) + 1 / 2) * width :=
        mul_le_mul_of_nonneg_right (by linarith) hs.le
      have h4 : (x + env.worldWidth / 2) / width * width = x + env.worldWidth / 2 :=
        div_mul_cancel₀ _ hs.ne.symm
      linarith
  · intro i b c hb hc
    have hi1 : i + 1 < (Floor.new env width height).blocks.length := by
      by_contra hcon
      rw [List.getElem?_eq_none (by omega)] at hc
      exact Option.noConfusion hc
    have hb2 := hget i (by omega)
    have hc2 := hget (i + 1) hi1
    rw [hb] at hb2
    rw [hc] at hc2
    cases hb2
    cases hc2
    show -env.worldWidth / 2 + (i : ℚ) * width + width / 2 =
      -env.worldWidth / 2 + ((i + 1 : ℕ) : ℚ) * width - width / 2
    push_cast
    ring

namespace Floor

theorem new64_blocks (env : FloorEnv) (width height : ℚ) :
    (Floor.new64 env width height).blocks =
      (List.range (⌈Binary64.div env.worldWidth width⌉ + 6).toNat).map
        (mkBlock64 env
          { blocks := [], width := width, height := height, outlineObjects := [] }) := by
  simp [Floor.new64, createFloor64, toggleOutline, blocksNeeded64]

theorem new64_blocks_length (env : FloorEnv) (width height : ℚ) :
    (Floor.new64 env width height).blocks.length =
      (⌈Binary64.div env.worldWidth width⌉ + 6).toNat := by
  simp [new64_blocks]

theorem new64_blocks_getElem? (env : FloorEnv) (width height : ℚ) (i : ℕ)
    (hi : i < (⌈Binary64.div env.worldWidth width⌉ + 6).toNat) :
    (Floor.new64 env width height).blocks[i]? =
      some (mkBlock64 env
        { blocks := [], width := width, height := height, outlineObjects := [] } i) := by
  simp [new64_blocks, List.getElem?_map, List.getElem?_range hi]

/-- The distance between a block centre as `createFloor` computes it in binary64,
`nearest (nearest (-W/2) + nearest (n * s))`, and the exact `-W/2 + n * s`. -/
theorem centre_error (W y : ℚ) (hW : 0 ≤ W) (hy : 0 ≤ y) :
    -W / 2 + y - (W / 2 + y) * 3 / 2 ^ 53 ≤
        Binary64.add (Binary64.div (-W) 2) (Binary64.nearest y) ∧
      Binary64.add (Binary64.div (-W) 2) (Binary64.nearest y) ≤
        -W / 2 + y + (W / 2 + y) * 3 / 2 ^ 53 := by
  have hp := Binary64.nearest_bounds y
  rw [abs_of_nonneg hy] at hp
  have ha := Binary64.nearest_bounds (-W / 2)
  have habsW : |(-W / 2 : ℚ)| = W / 2 := by
    rw [abs_of_nonpos (by linarith)]
    ring
  rw [habsW] at ha
  have hc := Binary64.nearest_bounds (Binary64.nearest (-W / 2) + Binary64.nearest y)
  have habs : |Binary64.nearest (-W / 2) + Binary64.nearest y| ≤
      (W / 2 + y) * (1 + 1 / 2 ^ 53) := by
    rw [abs_le]
    constructor
    · norm_num at hp ha ⊢
      linarith [hp.1, ha.1]
    · norm_num at hp ha ⊢
      linarith [hp.2, ha.2]
  have hE : |Binary64.nearest (-W / 2) + Binary64.nearest y| / 2 ^ 53 ≤
      (W / 2 + y) * (1 + 1 / 2 ^ 53) / 2 ^ 53 :=
    div_le_div_of_nonneg_right habs (by positivity)
  unfold Binary64.add Binary64.div
  constructor
  · norm_num at hp ha hE ⊢
    linarith [hp.1, ha.1, hc.1]
  · norm_num at hp ha hE ⊢
    linarith [hp.2, ha.2, hc.2]

end Floor

/-- C2 (as amended): with no persisted offset, a visible width `W > 0` and a block width
`s > 0`, the floor built in binary64 has `ceil(W/s) + 6` blocks, block `i` is centred at
the binary64 value of `-W/2 + i*s` and all blocks have the same `y`. When `W ≤ 2^53 * s`,
`N*s ≥ W` and every `x` in `[-W/2, W/2]` lies within `(W + s) / 2^50` of the closed
horizontal extent of some block. -/
theorem createFloor_binary64_covers_up_to_rounding (env : FloorEnv) (width height : ℚ)
    (hX : env.savedPositionX = none) (hY : env.savedPositionY = none)
    (hW : 0 < env.worldWidth) (hs : 0 < width) :
    ((Floor.new64 env width height).blocks.length : ℤ) = ⌈Binary64.div env.worldWidth width⌉ + 6 ∧
      (∀ i : ℕ, i < (Floor.new64 env width height).blocks.length →
        (Floor.new64 env width height).blocks[i]? =
          some { position :=
                  { x := Binary64.add (Binary64.div (-env.worldWidth) 2)
                      (Binary64.mul (i : ℚ) width)
                    y := Binary64.add
                      (Binary64.sub (Binary64.div (-env.worldHeight) 2) (5 / 2))
                      (Binary64.div height 2)
                    z := -5 } }) ∧
      (env.worldWidth ≤ 2 ^ 53 * width →
        env.worldWidth ≤ ((Floor.new64 env width height).blocks.length : ℚ) * width ∧
          ∀ x : ℚ, -env.worldWidth / 2 ≤ x → x ≤ env.worldWidth / 2 →
            ∃ b ∈ (Floor.new64 env width height).blocks,
              b.position.x - width / 2 - (env.worldWidth + width) / 2 ^ 50 ≤ x ∧
                x ≤ b.position.x + width / 2 + (env.worldWidth + width) / 2 ^ 50) := by
  have hq0 : 0 ≤ env.worldWidth / width := (div_pos hW hs).le
  have hB := Binary64.nearest_bounds (env.worldWidth / width)
  rw [abs_of_nonneg hq0] at hB
  have hdivnn : 0 ≤ Binary64.div env.worldWidth width := Binary64.nearest_nonneg _ hq0
  have hceil0 : 0 ≤ ⌈Binary64.div env.worldWidth width⌉ := Int.ceil_nonneg hdivnn
  have hlen := Floor.new64_blocks_length env width height
  have hlenZ : ((Floor.new64 env width height).blocks.length : ℤ) = ⌈Binary64.div env.worldWidth width⌉ + 6 := by
    rw [hlen, Int.toNat_of_nonneg (by omega)]
  have hget : ∀ i : ℕ, i < (Floor.new64 env width height).blocks.length →
      (Floor.new64 env width height).blocks[i]? =
        some { position :=
                { x := Binary64.add (Binary64.div (-env.worldWidth) 2)
                    (Binary64.mul (i : ℚ) width)
                  y := Binary64.add
                    (Binary64.sub (Binary64.div (-env.worldHeight) 2) (5 / 2))
                    (Binary64.div height 2)
                  z := -5 } } := by
    intro i hi
    rw [hlen] at hi
    rw [Floor.new64_blocks_getElem? env width height i hi]
    simp [Floor.mkBlock64, Floor.startX64, Floor.bottomPosition64, hX, hY]
  refine ⟨hlenZ, hget, ?_⟩
  intro hN
  have hratio : env.worldWidth / width / 2 ^ 53 ≤ 1 := by
    rw [div_le_iff₀ (by positivity), div_le_iff₀ hs]
    linarith
  have hdivlow : env.worldWidth / width - 1 ≤ Binary64.div env.worldWidth width := by
    unfold Binary64.div
    linarith [hB.1]
  have hceil : Binary64.div env.worldWidth width ≤
      (⌈Binary64.div env.worldWidth width⌉ : ℚ) := Int.le_ceil _
  have hlenQ : ((Floor.new64 env width height).blocks.length : ℚ) =
      (⌈Binary64.div env.worldWidth width⌉ : ℚ) + 6 := by
    have := congrArg (fun z : ℤ => (z : ℚ)) hlenZ
    simpa using this
  constructor
  · rw [hlenQ]
    have h1 : env.worldWidth = env.worldWidth / width * width :=
      (div_mul_cancel₀ _ hs.ne.symm).symm
    have h2 : env.worldWidth / width * width ≤
        ((⌈Binary64.div env.worldWidth width⌉ : ℚ) + 6) * width :=
      mul_le_mul_of_nonneg_right (by linarith) hs.le
    linarith
  · intro x hlo hhi
    have ht0 : 0 ≤ (x + env.worldWidth / 2) / width := div_nonneg (by linarith) hs.le
    have htW : (x + env.worldWidth / 2) / width ≤ env.worldWidth / width :=
      div_le_div_of_nonneg_right (by linarith) hs.le
    have hk0 : 0 ≤ ⌊(x + env.worldWidth / 2) / width + 1 / 2⌋ := Int.floor_nonneg.2 (by linarith)
    have hkle : (⌊(x + env.worldWidth / 2) / width + 1 / 2⌋ : ℚ) ≤
        (x + env.worldWidth / 2) / width + 1 / 2 := Int.floor_le _
    have hklt : (x + env.worldWidth / 2) / width + 1 / 2 <
        (⌊(x + env.worldWidth / 2) / width + 1 / 2⌋ : ℚ) + 1 := Int.lt_floor_add_one _
    have hkN : ⌊(x + env.worldWidth / 2) / width + 1 / 2⌋ <
        ⌈Binary64.div env.worldWidth width⌉ + 6 := by
      have : (⌊(x + env.worldWidth / 2) / width + 1 / 2⌋ : ℚ) <
          ((⌈Binary64.div env.worldWidth width⌉ + 6 : ℤ) : ℚ) := by
        push_cast
        linarith
      exact_mod_cast this
    obtain ⟨n, hn⟩ := Int.eq_ofNat_of_zero_le hk0
    have hnlt : n < (Floor.new64 env width height).blocks.length := by
      rw [hlen]
      omega
    have hnQ : (n : ℚ) = (⌊(x + env.worldWidth / 2) / width + 1 / 2⌋ : ℚ) := by
      rw [hn]
      simp
    have hmem := List.getElem?_mem (hget n hnlt)
    have h4 : (x + env.worldWidth / 2) / width * width = x + env.worldWidth / 2 :=
      div_mul_cancel₀ _ hs.ne.symm
    have hy0 : 0 ≤ (n : ℚ) * width := by positivity
    have hyle : (n : ℚ) * width ≤ x + env.worldWidth / 2 + width / 2 := by
      have h3 : (n : ℚ) * width ≤ ((x + env.worldWidth / 2) / width + 1 / 2) * width :=
        mul_le_mul_of_nonneg_right (by linarith) hs.le
      linarith
    have hylo : x + env.worldWidth / 2 - width / 2 ≤ (n : ℚ) * width := by
      have h3 : ((x + env.worldWidth / 2) / width - 1 / 2) * width ≤ (n : ℚ) * width :=
        mul_le_mul_of_nonneg_right (by linarith) hs.le
      linarith
    have hc := Floor.centre_error env.worldWidth ((n : ℚ) * width) hW.le hy0
    refine ⟨_, hmem, ?_, ?_⟩
    · show Binary64.add (Binary64.div (-env.worldWidth) 2) (Binary64.mul (n : ℚ) width) -
          width / 2 - (env.worldWidth + width) / 2 ^ 50 ≤ x
      unfold Binary64.mul
      norm_num at hc ⊢
      linarith [hc.2]
    · show x ≤ Binary64.add (Binary64.div (-env.worldWidth) 2) (Binary64.mul (n : ℚ) width) +
          width / 2 + (env.worldWidth + width) / 2 ^ 50
      unfold Binary64.mul
      norm_num at hc ⊢
      linarith [hc.1]

/-- The floor of the amended C2 for a visible width of 10 and blocks of width 3: ten
blocks, and `x = 5`, the right edge of the view, is within the tolerance of a block. -/
theorem createFloor_binary64_covers_up_to_rounding_witness :
    (0 : ℚ) < 10 ∧ (0 : ℚ) < 3 ∧ (10 : ℚ) ≤ 2 ^ 53 * 3 ∧
      ((Floor.new64 (FloorEnv.mk 10 8 none none) 3 (5 / 2)).blocks.length : ℤ) =
        ⌈Binary64.div 10 3⌉ + 6 ∧
      ∃ b ∈ (Floor.new64 (FloorEnv.mk 10 8 none none) 3 (5 / 2)).blocks,
          b.position.x - 3 / 2 - ((10 : ℚ) + 3) / 2 ^ 50 ≤ (5 : ℚ) ∧
            (5 : ℚ) ≤ b.position.x + 3 / 2 + ((10 : ℚ) + 3) / 2 ^ 50 :=
  ⟨by norm_num, by norm_num, by norm_num,
    (createFloor_binary64_covers_up_to_rounding (FloorEnv.mk 10 8 none none) 3 (5 / 2) rfl rfl
      (by norm_num) (by norm_num)).1,
    ((createFloor_binary64_covers_up_to_rounding (FloorEnv.mk 10 8 none none) 3 (5 / 2) rfl rfl
      (by norm_num) (by norm_num)).2.2 (by norm_num)).2 5 (by norm_num) (by norm_num)⟩

/-- C2 (as stated) fails: for a visible width of `10` and blocks of width `1.1`, both
positive, the floor built in binary64 has 16 blocks; block 5 ends at `1.05`, block 6
begins at `1.0500000000000005`, and the binary64 value `1.0500000000000003` between
them, which lies in `[-5, 5]`, is in the closed horizontal extent of no block, whether
the extent is taken exactly about the computed centre or computed in binary64 as
`checkCollision` does. -/
theorem floor_rounding_gap_counterexample :
    (0 : ℚ) < 10 ∧ 0 < Binary64.nearest (11 / 10) ∧
      (Floor.new64 (FloorEnv.mk 10 8 none none) (Binary64.nearest (11 / 10)) (5 / 2)).blocks.length = 16 ∧
      -(10 : ℚ) / 2 ≤ 2364389804369511 / 2 ^ 51 ∧
      (2364389804369511 / 2 ^ 51 : ℚ) ≤ 10 / 2 ∧
      (∀ b ∈ (Floor.new64 (FloorEnv.mk 10 8 none none) (Binary64.nearest (11 / 10)) (5 / 2)).blocks,
        ¬ (b.position.x - Binary64.nearest (11 / 10) / 2 ≤ 2364389804369511 / 2 ^ 51 ∧
            (2364389804369511 / 2 ^ 51 : ℚ) ≤ b.position.x + Binary64.nearest (11 / 10) / 2)) ∧
      (∀ b ∈ (Floor.new64 (FloorEnv.mk 10 8 none none) (Binary64.nearest (11 / 10)) (5 / 2)).blocks,
        ¬ (Binary64.sub b.position.x (Binary64.div (Binary64.nearest (11 / 10)) 2) ≤
              2364389804369511 / 2 ^ 51 ∧
            (2364389804369511 / 2 ^ 51 : ℚ) ≤
              Binary64.add b.position.x (Binary64.div (Binary64.nearest (11 / 10)) 2))) ∧
      ((Floor.new64 (FloorEnv.mk 10 8 none none) (Binary64.nearest (11 / 10)) (5 / 2)).blocks[5]?.map fun b => b.position.x + Binary64.nearest (11 / 10) / 2) =
        some (4728779608739021 / 2 ^ 52) ∧
      ((Floor.new64 (FloorEnv.mk 10 8 none none) (Binary64.nearest (11 / 10)) (5 / 2)).blocks[6]?.map fun b => b.position.x - Binary64.nearest (11 / 10) / 2) =
        some (4728779608739023 / 2 ^ 52) := by
  decide!

/-! ## Properties of the player controller -/

namespace Player

/-! ### The stages of `update` -/

theorem updateAnimation_velocity (dt : ℚ) (s : Player) :
    (updateAnimation dt s).velocity = s.velocity := by
  unfold updateAnimation
  dsimp only
  split_ifs <;> rfl

theorem updateAnimation_position (dt : ℚ) (s : Player) :
    (updateAnimation dt s).position = s.position := by
  unfold updateAnimation
  dsimp only
  split_ifs <;> rfl

theorem updatePosition_velocity (dt : ℚ) (s : Player) :
    (updatePosition dt s).velocity = s.velocity := rfl

theorem updatePosition_position (dt : ℚ) (s : Player) :
    (updatePosition dt s).position =
      { x := s.position.x + s.velocity.x * dt
        y := s.position.y + s.velocity.y * dt
        z := s.position.z + s.velocity.z * dt } := rfl

theorem updateVertical_velocity_x (dt : ℚ) (b : Bool) (s : Player) :
    (updateVertical dt b s).velocity.x = s.velocity.x := by
  unfold updateVertical
  split_ifs <;> rfl

theorem updateVertical_position (dt : ℚ) (b : Bool) (s : Player) :
    (updateVertical dt b s).position = s.position := by
  unfold updateVertical
  split_ifs <;> rfl

theorem updateHorizontal_position (b : Bool) (s : Player) :
    (updateHorizontal b s).position = s.position := by
  unfold updateHorizontal
  dsimp only
  split_ifs <;> rfl

/-- The horizontal velocity chosen by `update`: zero when the player may not move or
no flag is set, `moveSpeed` when `right` is set, `-moveSpeed` when only `left` is. -/
theorem updateHorizontal_velocity_x (b : Bool) (s : Player) :
    (updateHorizontal b s).velocity.x =
      if (!s.isAttacking || (s.isJumping || !b)) = true then
        if s.movement.right = true then s.moveSpeed
        else if s.movement.left = true then -s.moveSpeed else 0
      else 0 := by
  unfold updateHorizontal
  dsimp only
  split_ifs <;> rfl

/-- On a living player the velocity and position after `update` are those computed by
the movement stages; the animation stage does not touch them. -/
theorem update_alive_velocity_x (dt : ℚ) (b : Bool) (s : Player) (h : s.isDead = false) :
    (update dt b s).velocity.x = (updateHorizontal b s).velocity.x := by
  simp [update, h, updateAnimation_velocity, updatePosition_velocity, updateVertical_velocity_x]

theorem update_alive_position_x (dt : ℚ) (b : Bool) (s : Player) (h : s.isDead = false) :
    (update dt b s).position.x = s.position.x + (updateHorizontal b s).velocity.x * dt := by
  simp [update, h, updateAnimation_position, updatePosition_position, updateVertical_velocity_x,
    updateVertical_position, updateHorizontal_position]

end Player

/-- C3: `jump()` changes nothing on a player that is not grounded; on a grounded player
it sets `velocity.y = 10`, clears `isGrounded`, sets `isJumping`, resets `currentFrame`
and `frameTime`, and leaves position, the other velocity components, the movement flags
and the attack fields as they were. -/
theorem jump_only_when_grounded (s : Player) :
    (s.isGrounded = false → s.jump = s) ∧
      (s.isGrounded = true →
        s.jump.velocity.y = 10 ∧ s.jump.isGrounded = false ∧ s.jump.isJumping = true ∧
          s.jump.currentFrame = 0 ∧ s.jump.frameTime = 0 ∧
          s.jump.position = s.position ∧ s.jump.velocity.x = s.velocity.x ∧
          s.jump.velocity.z = s.velocity.z ∧ s.jump.movement = s.movement ∧
          s.jump.isAttacking = s.isAttacking ∧ s.jump.attackFrame = s.attackFrame ∧
          s.jump.attackDirection = s.attackDirection) := by
  constructor
  · intro h
    simp [Player.jump, h]
  · intro h
    simp [Player.jump, h]

/-- A fresh player is not grounded, so `jump()` leaves it alone; once marked grounded,
`jump()` launches it. -/
theorem jump_only_when_grounded_witness :
    Player.new.jump = Player.new ∧
      ({ Player.new with isGrounded := true } : Player).jump.velocity.y = 10 :=
  ⟨(jump_only_when_grounded Player.new).1 rfl,
    ((jump_only_when_grounded { Player.new with isGrounded := true }).2 rfl).1⟩

/-- C4: while an attack is in progress, `handleAttack(event)` leaves the whole state
unchanged, whatever the click position. -/
theorem handleAttack_noop_while_attacking (playerScreenX : ℚ) (event : ClickEvent)
    (s : Player) (h : s.isAttacking = true) :
    s.handleAttack playerScreenX event = s := by
  simp [Player.handleAttack, h]

/-- A second click during the attack started by a first click changes nothing. -/
theorem handleAttack_noop_while_attacking_witness :
    (Player.new.handleAttack 400 (ClickEvent.mk 500)).isAttacking = true ∧
      (Player.new.handleAttack 400 (ClickEvent.mk 500)).handleAttack 400 (ClickEvent.mk 100) =
        Player.new.handleAttack 400 (ClickEvent.mk 500) :=
  ⟨rfl, handleAttack_noop_while_attacking 400 (ClickEvent.mk 100)
    (Player.new.handleAttack 400 (ClickEvent.mk 500)) rfl⟩

/-- C5: on a living, attacking player with `moveSpeed > 0` and a movement flag set, a tick
on the ground (`isJumping` false, `isOnFloor` true) gives `velocity.x = 0` and leaves
`position.x` alone, while a tick in the air (`isJumping` true or `isOnFloor` false) gives
`velocity.x = ±moveSpeed`, which is not zero. -/
theorem attack_roots_player_only_on_ground (deltaTime : ℚ) (isOnFloor : Bool) (s : Player)
    (hAlive : s.isDead = false) (hAttack : s.isAttacking = true) (hSpeed : 0 < s.moveSpeed)
    (hMove : s.movement.left = true ∨ s.movement.right = true) :
    (s.isJumping = false ∧ isOnFloor = true →
        (s.update deltaTime isOnFloor).velocity.x = 0 ∧
          (s.update deltaTime isOnFloor).position.x = s.position.x) ∧
      (s.isJumping = true ∨ isOnFloor = false →
        (s.update deltaTime isOnFloor).velocity.x ≠ 0 ∧
          ((s.update deltaTime isOnFloor).velocity.x = s.moveSpeed ∨
            (s.update deltaTime isOnFloor).velocity.x = -s.moveSpeed)) := by
  rw [Player.update_alive_velocity_x deltaTime isOnFloor s hAlive,
    Player.update_alive_position_x deltaTime isOnFloor s hAlive,
    Player.updateHorizontal_velocity_x]
  constructor
  · rintro ⟨hj, hf⟩
    simp [hAttack, hj, hf]
  · intro hair
    have hcan : (!s.isAttacking || (s.isJumping || !isOnFloor)) = true := by
      rcases hair with hj | hf
      · simp [hj]
      · simp [hf]
    rw [if_pos hcan]
    by_cases hr : s.movement.right = true
    · rw [if_pos hr]
      exact ⟨hSpeed.ne.symm, Or.inl rfl⟩
    · have hl : s.movement.left = true := hMove.resolve_right hr
      rw [if_neg hr, if_pos hl]
      exact ⟨neg_ne_zero.2 hSpeed.ne.symm, Or.inr rfl⟩

/-- A fresh player that holds `right` and has clicked to attack: rooted on the floor,
moving at `moveSpeed` when off the floor. -/
theorem attack_roots_player_only_on_ground_witness :
    ((Player.new.startMoving Direction.right).handleAttack 400 (ClickEvent.mk 500)).isDead = false ∧
      ((Player.new.startMoving Direction.right).handleAttack 400 (ClickEvent.mk 500)).isAttacking
        = true ∧
      (((Player.new.startMoving Direction.right).handleAttack 400 (ClickEvent.mk 500)).update
        (1 / 60) true).velocity.x = 0 ∧
      (((Player.new.startMoving Direction.right).handleAttack 400 (ClickEvent.mk 500)).update
        (1 / 60) false).velocity.x ≠ 0 :=
  ⟨rfl, rfl,
    ((attack_roots_player_only_on_ground (1 / 60) true
      ((Player.new.startMoving Direction.right).handleAttack 400 (ClickEvent.mk 500))
      rfl rfl (by norm_num [Player.handleAttack, Player.startMoving, Player.new, Player.baseSpeed])
      (Or.inr rfl)).1 ⟨rfl, rfl⟩).1,
    ((attack_roots_player_only_on_ground (1 / 60) false
      ((Player.new.startMoving Direction.right).handleAttack 400 (ClickEvent.mk 500))
      rfl rfl (by norm_num [Player.handleAttack, Player.startMoving, Player.new, Player.baseSpeed])
      (Or.inr rfl)).2 (Or.inr rfl)).1⟩

/-- C6: `die()` is idempotent; on a dead player it changes nothing (so `deathFrame` and
`deathAnimationComplete` are kept), and on a living player it sets `isDead`, resets
`deathFrame` to `0` and zeroes the velocity. -/
theorem die_idempotent (s : Player) :
    s.die.die = s.die ∧
      (s.isDead = true → s.die = s) ∧
      (s.isDead = false →
        s.die.isDead = true ∧ s.die.deathFrame = 0 ∧
          s.die.velocity = { x := 0, y := 0, z := 0 }) := by
  refine ⟨?_, ?_, ?_⟩
  · by_cases h : s.isDead = true
    · simp [Player.die, h]
    · simp [Player.die, h]
  · intro h
    simp [Player.die, h]
  · intro h
    simp [Player.die, h]

/-- A dead player half-way through its death sequence is untouched by `die()`, and a
fresh player dies with zero velocity. -/
theorem die_idempotent_witness :
    ({ Player.new with isDead := true, deathFrame := 4 } : Player).die =
        { Player.new with isDead := true, deathFrame := 4 } ∧
      Player.new.die.isDead = true :=
  ⟨(die_idempotent { Player.new with isDead := true, deathFrame := 4 }).2.1 rfl,
    ((die_idempotent Player.new).2.2 rfl).1⟩

namespace Player

/-! ### The death sequence -/

theorem updateHorizontal_death_fields (b : Bool) (s : Player) :
    (updateHorizontal b s).isDead = s.isDead ∧
      (updateHorizontal b s).deathAnimationComplete = s.deathAnimationComplete ∧
      (updateHorizontal b s).deathMenuShown = s.deathMenuShown := by
  unfold updateHorizontal
  dsimp only
  split_ifs <;> exact ⟨rfl, rfl, rfl⟩

theorem updateVertical_death_fields (dt : ℚ) (b : Bool) (s : Player) :
    (updateVertical dt b s).isDead = s.isDead ∧
      (updateVertical dt b s).deathAnimationComplete = s.deathAnimationComplete ∧
      (updateVertical dt b s).deathMenuShown = s.deathMenuShown := by
  unfold updateVertical
  split_ifs <;> exact ⟨rfl, rfl, rfl⟩

theorem updateAnimation_death_fields (dt : ℚ) (s : Player) :
    (updateAnimation dt s).isDead = s.isDead ∧
      (updateAnimation dt s).deathAnimationComplete = s.deathAnimationComplete ∧
      (updateAnimation dt s).deathMenuShown = s.deathMenuShown := by
  unfold updateAnimation
  dsimp only
  split_ifs <;> exact ⟨rfl, rfl, rfl⟩

/-- On a living player `update` leaves the death bookkeeping alone. -/
theorem update_alive_death_fields (dt : ℚ) (b : Bool) (s : Player) (h : s.isDead = false) :
    (update dt b s).isDead = s.isDead ∧
      (update dt b s).deathAnimationComplete = s.deathAnimationComplete ∧
      (update dt b s).deathMenuShown = s.deathMenuShown := by
  have h1 := updateHorizontal_death_fields b s
  have h2 := updateVertical_death_fields dt b (updateHorizontal b s)
  have h3 := updateAnimation_death_fields dt
    (updatePosition dt (updateVertical dt b (updateHorizontal b s)))
  have h4 : (updatePosition dt (updateVertical dt b (updateHorizontal b s))).isDead =
      (updateVertical dt b (updateHorizontal b s)).isDead := rfl
  have h5 : (updatePosition dt (updateVertical dt b (updateHorizontal b s))).deathAnimationComplete
      = (updateVertical dt b (updateHorizontal b s)).deathAnimationComplete := rfl
  have h6 : (updatePosition dt (updateVertical dt b (updateHorizontal b s))).deathMenuShown =
      (updateVertical dt b (updateHorizontal b s)).deathMenuShown := rfl
  have hu : update dt b s = updateAnimation dt
      (updatePosition dt (updateVertical dt b (updateHorizontal b s))) := by
    simp [update, h]
  rw [hu]
  exact ⟨h3.1.trans (h4.trans (h2.1.trans h1.1)), h3.2.1.trans (h5.trans (h2.2.1.trans h1.2.1)),
    h3.2.2.trans (h6.trans (h2.2.2.trans h1.2.2))⟩

/-- What one operation can do to the death bookkeeping: it never revives the player,
it completes the death animation only on a dead player, and it calls
`showDeathMenu` only at the moment it completes the animation. -/
theorem step_death_invariant (s : Player) (op : Op)
    (hc : s.deathAnimationComplete = true → s.isDead = true)
    (hn : s.deathMenuShown = 0 ∨ (s.deathMenuShown = 1 ∧ s.deathAnimationComplete = true)) :
    ((s.step op).deathAnimationComplete = true → (s.step op).isDead = true) ∧
      ((s.step op).deathMenuShown = 0 ∨
        ((s.step op).deathMenuShown = 1 ∧ (s.step op).deathAnimationComplete = true)) := by
  cases op with
  | update dt b =>
    by_cases hd : s.isDead = true
    · have hu : s.update dt b = updateDead dt s := by simp [update, hd]
      simp only [step, hu]
      unfold updateDead
      dsimp only
      split_ifs with h1 h2
      · rcases hn with h0 | ⟨_, hcomp⟩
        · simp [hd, h0]
        · rw [hcomp] at h1
          exact absurd h1.2 (by simp)
      · exact ⟨fun hx => by simp [h1.2] at hx, by simpa [h1.2] using hn⟩
      · exact ⟨fun _ => hd, hn⟩
    · have hd2 : s.isDead = false := by simpa using hd
      have hcf : s.deathAnimationComplete = false := by
        cases hx : s.deathAnimationComplete
        · rfl
        · rw [hc hx] at hd2
          exact absurd hd2 (by simp)
      have hu := update_alive_death_fields dt b s hd2
      simp only [step]
      rw [hu.1, hu.2.1, hu.2.2]
      exact ⟨hc, hn⟩
  | jump =>
    simp only [step, jump]
    split_ifs
    · exact ⟨hc, hn⟩
    · exact ⟨hc, hn⟩
  | startMoving d => exact ⟨hc, hn⟩
  | stopMoving d => exact ⟨hc, hn⟩
  | handleAttack x e =>
    simp only [step, handleAttack]
    split_ifs <;> exact ⟨hc, hn⟩
  | die =>
    simp only [step, die]
    split_ifs with hd
    · exact ⟨hc, hn⟩
    · have hcf : s.deathAnimationComplete = false := by
        cases hx : s.deathAnimationComplete
        · rfl
        · exact absurd (hc hx) hd
      refine ⟨fun hx => rfl, ?_⟩
      rcases hn with h0 | ⟨_, hcomp⟩
      · exact Or.inl h0
      · rw [hcomp] at hcf
        exact absurd hcf (by simp)
  | shiftKeyDown => exact ⟨hc, hn⟩
  | shiftKeyUp => exact ⟨hc, hn⟩

theorem run_death_invariant (ops : List Op) (s : Player)
    (hc : s.deathAnimationComplete = true → s.isDead = true)
    (hn : s.deathMenuShown = 0 ∨ (s.deathMenuShown = 1 ∧ s.deathAnimationComplete = true)) :
    ((s.run ops).deathAnimationComplete = true → (s.run ops).isDead = true) ∧
      ((s.run ops).deathMenuShown = 0 ∨
        ((s.run ops).deathMenuShown = 1 ∧ (s.run ops).deathAnimationComplete = true)) := by
  induction ops generalizing s with
  | nil => exact ⟨hc, hn⟩
  | cons op rest ih =>
    have h := step_death_invariant s op hc hn
    exact ih (s.step op) h.1 h.2

/-- After the death animation has completed on a dead player, no operation changes the
death bookkeeping. -/
theorem step_after_death_complete (s : Player) (op : Op) (hd : s.isDead = true)
    (hc : s.deathAnimationComplete = true) :
    (s.step op).isDead = true ∧ (s.step op).deathAnimationComplete = true ∧
      (s.step op).deathMenuShown = s.deathMenuShown := by
  cases op with
  | update dt b => simp [step, update, updateDead, hd, hc]
  | jump =>
    simp only [step, jump]
    split_ifs
    · exact ⟨hd, hc, rfl⟩
    · exact ⟨hd, hc, rfl⟩
  | startMoving d => exact ⟨hd, hc, rfl⟩
  | stopMoving d => exact ⟨hd, hc, rfl⟩
  | handleAttack x e =>
    simp only [step, handleAttack]
    split_ifs <;> exact ⟨hd, hc, rfl⟩
  | die => simp [step, die, hd, hc]
  | shiftKeyDown => exact ⟨hd, hc, rfl⟩
  | shiftKeyUp => exact ⟨hd, hc, rfl⟩

theorem run_after_death_complete (ops : List Op) (s : Player) (hd : s.isDead = true)
    (hc : s.deathAnimationComplete = true) :
    (s.run ops).deathMenuShown = s.deathMenuShown := by
  induction ops generalizing s with
  | nil => rfl
  | cons op rest ih =>
    have h := step_after_death_complete s op hd hc
    exact (ih (s.step op) h.1 h.2.1).trans h.2.2

end Player

/-- C7: whatever operations (`update` with any `deltaTime` and `isOnFloor`, `jump`,
`startMoving`, `stopMoving`, `handleAttack`, `die`, shift key down or up) are applied to a
freshly constructed player, `game.showDeathMenu` has been called at most once; and once
`deathAnimationComplete` is true, no later operation calls it again. -/
theorem death_complete_raised_at_most_once (ops : List Player.Op) :
    (Player.new.run ops).deathMenuShown ≤ 1 ∧
      ((Player.new.run ops).deathAnimationComplete = true →
        ∀ later : List Player.Op,
          ((Player.new.run ops).run later).deathMenuShown =
            (Player.new.run ops).deathMenuShown) := by
  have h := Player.run_death_invariant ops Player.new (fun hx => by simp [Player.new] at hx)
    (Or.inl rfl)
  constructor
  · rcases h.2 with h0 | ⟨h1, _⟩
    · omega
    · omega
  · intro hc later
    exact Player.run_after_death_complete later _ (h.1 hc) hc

/-- A fresh player that dies and is updated ten times at the death cadence has completed
its death animation; a further `die()` and further updates do not raise the signal again. -/
theorem death_complete_raised_at_most_once_witness :
    (Player.new.run
        (Player.Op.die :: List.replicate 10 (Player.Op.update (15 / 100) true))).deathAnimationComplete
        = true ∧
      ((Player.new.run
          (Player.Op.die :: List.replicate 10 (Player.Op.update (15 / 100) true))).run
          [Player.Op.die, Player.Op.update (15 / 100) true, Player.Op.update 3 false]).deathMenuShown
        = (Player.new.run
          (Player.Op.die :: List.replicate 10 (Player.Op.update (15 / 100) true))).deathMenuShown :=
  ⟨by decide!,
    (death_complete_raised_at_most_once
      (Player.Op.die :: List.replicate 10 (Player.Op.update (15 / 100) true))).2 (by decide!)
      [Player.Op.die, Player.Op.update (15 / 100) true, Player.Op.update 3 false]⟩

namespace Player

/-- One tick at the death cadence on a dead player whose animation is not complete: the
frame timer has reached the threshold, so the death frame advances, and the signal is
raised exactly when the frame reaches ten. -/
theorem update_dead_tick (b : Bool) (p : Player) (hd : p.isDead = true)
    (hc : p.deathAnimationComplete = false) (ht : 0 ≤ p.frameTime) :
    (p.update deathSpeed b).isDead = true ∧ (p.update deathSpeed b).frameTime = 0 ∧
      (p.update deathSpeed b).deathFrame = p.deathFrame + 1 ∧
      (p.update deathSpeed b).deathAnimationComplete = decide (10 ≤ p.deathFrame + 1) ∧
      (p.update deathSpeed b).deathMenuShown =
        p.deathMenuShown + (if 10 ≤ p.deathFrame + 1 then 1 else 0) := by
  have hu : p.update deathSpeed b = updateDead deathSpeed p := by simp [update, hd]
  have hge : p.frameTime + deathSpeed ≥ deathSpeed := by linarith
  rw [hu]
  unfold updateDead
  dsimp only
  rw [if_pos ⟨hge, hc⟩]
  by_cases h10 : 10 ≤ p.deathFrame + 1
  · simp [h10, hd]
  · simp [h10, hd, hc]

/-- The fields `die()` writes on a living player, and those of the death sequence it
keeps. -/
theorem die_alive (s : Player) (h : s.isDead = false) :
    s.die.isDead = true ∧ s.die.deathAnimationComplete = false ∧
      s.die.frameTime = s.frameTime ∧ s.die.deathFrame = 0 ∧
      s.die.deathMenuShown = s.deathMenuShown ∧
      s.die.velocity = { x := 0, y := 0, z := 0 } := by
  simp [die, h]

theorem updates_append (dt : ℚ) (xs ys : List Bool) (p : Player) :
    p.updates dt (xs ++ ys) = (p.updates dt xs).updates dt ys := by
  simp [updates, List.foldl_append]

/-- While fewer than ten death frames have been shown, ticking at the death cadence
advances `deathFrame` by one per tick and raises no signal. -/
theorem updates_dead_progress (floor : List Bool) (p : Player) (hd : p.isDead = true)
    (hc : p.deathAnimationComplete = false) (ht : 0 ≤ p.frameTime)
    (hlt : p.deathFrame + floor.length < 10) :
    (p.updates deathSpeed floor).isDead = true ∧
      (p.updates deathSpeed floor).deathAnimationComplete = false ∧
      0 ≤ (p.updates deathSpeed floor).frameTime ∧
      (p.updates deathSpeed floor).deathFrame = p.deathFrame + floor.length ∧
      (p.updates deathSpeed floor).deathMenuShown = p.deathMenuShown := by
  induction floor generalizing p with
  | nil => exact ⟨hd, hc, ht, rfl, rfl⟩
  | cons b rest ih =>
    have hlen : p.deathFrame + (rest.length + 1) < 10 := by simpa using hlt
    have h := update_dead_tick b p hd hc ht
    have hnot : ¬ 10 ≤ p.deathFrame + 1 := by omega
    have hc2 : (p.update deathSpeed b).deathAnimationComplete = false := by
      rw [h.2.2.2.1]
      simp [hnot]
    have hn2 : (p.update deathSpeed b).deathMenuShown = p.deathMenuShown := by
      rw [h.2.2.2.2, if_neg hnot]
      rfl
    have hrec := ih (p.update deathSpeed b) h.1 hc2 (by rw [h.2.1]) (by rw [h.2.2.1]; omega)
    have hstep : p.updates deathSpeed (b :: rest) = (p.update deathSpeed b).updates deathSpeed rest :=
      rfl
    rw [hstep]
    refine ⟨hrec.1, hrec.2.1, hrec.2.2.1, ?_, ?_⟩
    · rw [hrec.2.2.2.1, h.2.2.1]
      simp only [List.length_cons]
      omega
    · rw [hrec.2.2.2.2, hn2]

end Player

/-- C8: after `die()` on a living player with `frameTime ≥ 0`, the player is dead with
zero velocity; ten following `update` calls with `deltaTime = deathSpeed` (any `isOnFloor`
values) raise the death-complete signal during the tenth call and not before, and leave
`deathFrame = 10`. -/
theorem death_complete_on_tenth_update (s : Player) (floor : List Bool)
    (hAlive : s.isDead = false) (hTime : 0 ≤ s.frameTime) (hLen : floor.length = 10) :
    s.die.isDead = true ∧ s.die.velocity = { x := 0, y := 0, z := 0 } ∧
      (∀ k : ℕ, k < 10 →
        (s.die.updates Player.deathSpeed (floor.take k)).deathMenuShown = s.deathMenuShown) ∧
      (s.die.updates Player.deathSpeed floor).deathMenuShown = s.deathMenuShown + 1 ∧
      (s.die.updates Player.deathSpeed floor).deathFrame = 10 ∧
      (s.die.updates Player.deathSpeed floor).deathAnimationComplete = true := by
  have hdie := Player.die_alive s hAlive
  have hd : s.die.isDead = true := hdie.1
  have hc : s.die.deathAnimationComplete = false := hdie.2.1
  have ht : 0 ≤ s.die.frameTime := by rw [hdie.2.2.1]; exact hTime
  have hf : s.die.deathFrame = 0 := hdie.2.2.2.1
  have hn : s.die.deathMenuShown = s.deathMenuShown := hdie.2.2.2.2.1
  have hfirst : ∀ k : ℕ, k < 10 →
      (s.die.updates Player.deathSpeed (floor.take k)).isDead = true ∧
        (s.die.updates Player.deathSpeed (floor.take k)).deathAnimationComplete = false ∧
        0 ≤ (s.die.updates Player.deathSpeed (floor.take k)).frameTime ∧
        (s.die.updates Player.deathSpeed (floor.take k)).deathFrame = k ∧
        (s.die.updates Player.deathSpeed (floor.take k)).deathMenuShown = s.deathMenuShown := by
    intro k hk
    have hl : (floor.take k).length = k := by
      rw [List.length_take, hLen]
      omega
    have h := Player.updates_dead_progress (floor.take k) s.die hd hc ht (by rw [hf, hl]; omega)
    rw [hf, hl, hn] at h
    simpa using h
  obtain ⟨b, hb⟩ : ∃ b, floor.drop 9 = [b] := by
    have hl : (floor.drop 9).length = 1 := by
      rw [List.length_drop, hLen]
    match hm : floor.drop 9, hl with
    | [b], _ => exact ⟨b, rfl⟩
  have hsplit : floor = floor.take 9 ++ [b] := by
    rw [← hb, List.take_append_drop]
  have h9 := hfirst 9 (by omega)
  have hlast := Player.update_dead_tick b (s.die.updates Player.deathSpeed (floor.take 9))
    h9.1 h9.2.1 h9.2.2.1
  have hall : s.die.updates Player.deathSpeed floor =
      (s.die.updates Player.deathSpeed (floor.take 9)).update Player.deathSpeed b := by
    conv_lhs => rw [hsplit]
    rw [Player.updates_append]
    rfl
  refine ⟨hd, hdie.2.2.2.2.2, fun k hk => (hfirst k hk).2.2.2.2, ?_, ?_, ?_⟩
  · rw [hall, hlast.2.2.2.2, h9.2.2.2.1, h9.2.2.2.2]
    rfl
  · rw [hall, hlast.2.2.1, h9.2.2.2.1]
  · rw [hall, hlast.2.2.2.1, h9.2.2.2.1]
    rfl

/-- A fresh player dies and is updated ten times at the death cadence, on the floor:
the signal has been raised once, and the death frame is ten. -/
theorem death_complete_on_tenth_update_witness :
    Player.new.isDead = false ∧ (0 : ℚ) ≤ Player.new.frameTime ∧
      (List.replicate 10 true).length = 10 ∧
      (Player.new.die.updates Player.deathSpeed (List.replicate 10 true)).deathMenuShown = 1 ∧
      (Player.new.die.updates Player.deathSpeed (List.replicate 10 true)).deathFrame = 10 :=
  ⟨rfl, le_refl _, rfl,
    (death_complete_on_tenth_update Player.new (List.replicate 10 true) rfl (le_refl _) rfl).2.2.2.1,
    (death_complete_on_tenth_update Player.new (List.replicate 10 true) rfl (le_refl _)
      rfl).2.2.2.2.1⟩

/-- C9: the player produced by a restart is at `(0, 2, -5)` with zero velocity, alive,
with `deathFrame = 0` and `deathAnimationComplete = false`, not attacking, not jumping, no
movement flag set, with `currentFrame = 0` and `frameTime = 0` and showing the first idle
frame, whatever game state is restarted. -/
theorem restart_resets_player (env : FloorEnv) (g : Game) :
    (g.restartGame env).player.position = { x := 0, y := 2, z := -5 } ∧
      (g.restartGame env).player.velocity = { x := 0, y := 0, z := 0 } ∧
      (g.restartGame env).player.isDead = false ∧
      (g.restartGame env).player.deathFrame = 0 ∧
      (g.restartGame env).player.deathAnimationComplete = false ∧
      (g.restartGame env).player.isAttacking = false ∧
      (g.restartGame env).player.isJumping = false ∧
      (g.restartGame env).player.movement = { left := false, right := false } ∧
      (g.restartGame env).player.currentFrame = 0 ∧
      (g.restartGame env).player.frameTime = 0 ∧
      (g.restartGame env).player.sprite.map = textureAt Clip.idle Direction.right 0 :=
  ⟨rfl, rfl, rfl, rfl, rfl, rfl, rfl, rfl, rfl, rfl, rfl⟩

/-- C10 (as amended): from a freshly spawned player at `(0, 2, -5)` with shift not held,
after `startMoving('right')` and one `update(0.1, isOnFloor)` the horizontal velocity is
`3` and `position.x` has grown by the binary64 product `3 * 0.1`, which is
`0.30000000000000004`: the binary64 value of `0.3` plus `2^-54`. This holds for either
value of `isOnFloor`. -/
theorem walk_right_one_tick_binary64 (isOnFloor : Bool) :
    (((Player.new.setPosition 0 2 (-5)).startMoving Direction.right).update64 (Binary64.nearest (1 / 10))
        isOnFloor).velocity.x = 3 ∧
      (((Player.new.setPosition 0 2 (-5)).startMoving Direction.right).update64 (Binary64.nearest (1 / 10))
        isOnFloor).position.x = (Player.new.setPosition 0 2 (-5)).position.x + 1351079888211149 / 2 ^ 52 ∧
      (1351079888211149 / 2 ^ 52 : ℚ) = Binary64.mul 3 (Binary64.nearest (1 / 10)) ∧
      (1351079888211149 / 2 ^ 52 : ℚ) = Binary64.nearest (3 / 10) + 1 / 2 ^ 54 ∧
      (Player.new.setPosition 0 2 (-5)).position = { x := 0, y := 2, z := -5 } ∧
      (Player.new.setPosition 0 2 (-5)).isShiftPressed = false := by
  cases isOnFloor <;> decide!

/-- C10 (as stated) fails: after `startMoving('right')` and `update(0.1, true)` on a
freshly spawned player, `position.x` is neither the old value plus `3/10` nor the old
value plus the binary64 value of `0.3`; it exceeds both. -/
theorem walk_right_not_three_tenths_counterexample :
    (((Player.new.setPosition 0 2 (-5)).startMoving Direction.right).update64 (Binary64.nearest (1 / 10))
        true).position.x ≠ (Player.new.setPosition 0 2 (-5)).position.x + 3 / 10 ∧
      (((Player.new.setPosition 0 2 (-5)).startMoving Direction.right).update64 (Binary64.nearest (1 / 10))
        true).position.x ≠ Binary64.add (Player.new.setPosition 0 2 (-5)).position.x (Binary64.nearest (3 / 10)) ∧
      (Player.new.setPosition 0 2 (-5)).position.x + 3 / 10 <
        (((Player.new.setPosition 0 2 (-5)).startMoving Direction.right).update64 (Binary64.nearest (1 / 10))
          true).position.x := by
  decide!

namespace Player

/-! ### The stages of `update`, field by field -/

/-- On a living player `update` is the four stages in order. -/
theorem update_alive (dt : ℚ) (b : Bool) (s : Player) (h : s.isDead = false) :
    update dt b s =
      updateAnimation dt (updatePosition dt (updateVertical dt b (updateHorizontal b s))) := by
  simp [update, h]

/-- The facing direction after the horizontal stage: set by the movement flags unless
an attack is in progress, `right` taking effect after `left`. -/
theorem updateHorizontal_lastLookedDirection (b : Bool) (s : Player) :
    (updateHorizontal b s).lastLookedDirection =
      if s.isAttacking = true then s.lastLookedDirection
      else if s.movement.right = true then Direction.right
      else if s.movement.left = true then Direction.left else s.lastLookedDirection := by
  unfold updateHorizontal
  dsimp only
  cases hA : s.isAttacking <;> cases hR : s.movement.right <;> cases hL : s.movement.left <;>
    cases hJ : s.isJumping <;> cases b <;> simp [hA, hR, hL, hJ]

theorem updateHorizontal_isOnAir (b : Bool) (s : Player) :
    (updateHorizontal b s).isOnAir = (s.isJumping || !b) := by
  unfold updateHorizontal
  dsimp only
  split_ifs <;> rfl

/-- The fields the horizontal stage does not write. -/
theorem updateHorizontal_kept (b : Bool) (s : Player) :
    (updateHorizontal b s).velocity.y = s.velocity.y ∧
      (updateHorizontal b s).velocity.z = s.velocity.z ∧
      (updateHorizontal b s).isGrounded = s.isGrounded ∧
      (updateHorizontal b s).isJumping = s.isJumping ∧
      (updateHorizontal b s).isAttacking = s.isAttacking ∧
      (updateHorizontal b s).attackDirection = s.attackDirection ∧
      (updateHorizontal b s).attackFrame = s.attackFrame ∧
      (updateHorizontal b s).currentFrame = s.currentFrame ∧
      (updateHorizontal b s).frameTime = s.frameTime ∧
      (updateHorizontal b s).movement = s.movement ∧
      (updateHorizontal b s).isShiftPressed = s.isShiftPressed ∧
      (updateHorizontal b s).deathFrame = s.deathFrame ∧
      (updateHorizontal b s).sprite = s.sprite := by
  unfold updateHorizontal
  dsimp only
  split_ifs <;> exact ⟨rfl, rfl, rfl, rfl, rfl, rfl, rfl, rfl, rfl, rfl, rfl, rfl, rfl⟩

/-- The three fields the vertical stage writes. -/
theorem updateVertical_written (dt : ℚ) (b : Bool) (s : Player) :
    (updateVertical dt b s).velocity.y =
        (if b = false then s.velocity.y + gravity * dt
          else if s.velocity.y < 0 then 0 else s.velocity.y) ∧
      (updateVertical dt b s).isGrounded =
        (if b = true ∧ s.velocity.y < 0 then true else s.isGrounded) ∧
      (updateVertical dt b s).isJumping =
        (if b = true ∧ s.velocity.y < 0 then false else s.isJumping) := by
  unfold updateVertical
  cases b
  · simp
  · by_cases hv : s.velocity.y < 0
    · simp [hv]
    · simp [hv]

/-- The fields the vertical stage does not write. -/
theorem updateVertical_kept (dt : ℚ) (b : Bool) (s : Player) :
    (updateVertical dt b s).velocity.z = s.velocity.z ∧
      (updateVertical dt b s).lastLookedDirection = s.lastLookedDirection ∧
      (updateVertical dt b s).isOnAir = s.isOnAir ∧
      (updateVertical dt b s).isAttacking = s.isAttacking ∧
      (updateVertical dt b s).attackDirection = s.attackDirection ∧
      (updateVertical dt b s).attackFrame = s.attackFrame ∧
      (updateVertical dt b s).currentFrame = s.currentFrame ∧
      (updateVertical dt b s).frameTime = s.frameTime ∧
      (updateVertical dt b s).movement = s.movement ∧
      (updateVertical dt b s).isShiftPressed = s.isShiftPressed ∧
      (updateVertical dt b s).deathFrame = s.deathFrame ∧
      (updateVertical dt b s).sprite = s.sprite := by
  unfold updateVertical
  split_ifs <;> exact ⟨rfl, rfl, rfl, rfl, rfl, rfl, rfl, rfl, rfl, rfl, rfl, rfl⟩

/-- The fields the animation stage does not write. -/
theorem updateAnimation_kept (dt : ℚ) (s : Player) :
    (updateAnimation dt s).isGrounded = s.isGrounded ∧
      (updateAnimation dt s).isJumping = s.isJumping ∧
      (updateAnimation dt s).lastLookedDirection = s.lastLookedDirection ∧
      (updateAnimation dt s).isOnAir = s.isOnAir ∧
      (updateAnimation dt s).attackDirection = s.attackDirection ∧
      (updateAnimation dt s).movement = s.movement ∧
      (updateAnimation dt s).isShiftPressed = s.isShiftPressed ∧
      (updateAnimation dt s).deathFrame = s.deathFrame ∧
      (updateAnimation dt s).moveSpeed = s.moveSpeed := by
  unfold updateAnimation
  dsimp only
  split_ifs <;> exact ⟨rfl, rfl, rfl, rfl, rfl, rfl, rfl, rfl, rfl⟩

/-- Vertical velocity, grounding and the vertical position after `update` on a living
player: gravity off the floor, a landing on the floor with a negative velocity, and
otherwise no change; the position step uses the new velocity. -/
theorem update_alive_vertical (dt : ℚ) (b : Bool) (s : Player) (h : s.isDead = false) :
    (update dt b s).velocity.y =
        (if b = false then s.velocity.y + gravity * dt
          else if s.velocity.y < 0 then 0 else s.velocity.y) ∧
      (update dt b s).isGrounded =
        (if b = true ∧ s.velocity.y < 0 then true else s.isGrounded) ∧
      (update dt b s).isJumping =
        (if b = true ∧ s.velocity.y < 0 then false else s.isJumping) ∧
      (update dt b s).position.y = s.position.y + (update dt b s).velocity.y * dt := by
  have hH := updateHorizontal_kept b s
  have hV := updateVertical_written dt b (updateHorizontal b s)
  have hA := updateAnimation_kept dt
    (updatePosition dt (updateVertical dt b (updateHorizontal b s)))
  rw [hH.1, hH.2.2.1, hH.2.2.2.1] at hV
  rw [update_alive dt b s h, updateAnimation_velocity, updateAnimation_position, hA.1, hA.2.1]
  refine ⟨hV.1, hV.2.1, hV.2.2, ?_⟩
  show (updateVertical dt b (updateHorizontal b s)).position.y +
      (updateVertical dt b (updateHorizontal b s)).velocity.y * dt = _
  rw [updateVertical_position, updateHorizontal_position]
  rfl

end Player

/-- C11 (as amended): on a living player with `velocity.y < 0`, `update(deltaTime, true)`
gives `velocity.y = 0`, `isGrounded = true` and `isJumping = false`; with `velocity.y = 0`
the velocity stays `0` and `isGrounded` and `isJumping` keep their values. -/
theorem landing_needs_negative_velocity (deltaTime : ℚ) (s : Player)
    (hAlive : s.isDead = false) :
    (s.velocity.y < 0 →
        (s.update deltaTime true).velocity.y = 0 ∧ (s.update deltaTime true).isGrounded = true ∧
          (s.update deltaTime true).isJumping = false) ∧
      (s.velocity.y = 0 →
        (s.update deltaTime true).velocity.y = 0 ∧
          (s.update deltaTime true).isGrounded = s.isGrounded ∧
          (s.update deltaTime true).isJumping = s.isJumping) := by
  have h := Player.update_alive_vertical deltaTime true s hAlive
  constructor
  · intro hv
    rw [h.1, h.2.1, h.2.2.1]
    simp [hv]
  · intro hv
    rw [h.1, h.2.1, h.2.2.1]
    simp [hv]

/-- A player that has fallen for one tick lands on the next tick on the floor; a fresh
player, whose vertical velocity is `0`, stays not grounded on the floor. -/
theorem landing_needs_negative_velocity_witness :
    (Player.new.update (1 / 10) false).isDead = false ∧
      (Player.new.update (1 / 10) false).velocity.y < 0 ∧
      ((Player.new.update (1 / 10) false).update (1 / 10) true).isGrounded = true ∧
      (Player.new.update (1 / 10) true).isGrounded = Player.new.isGrounded :=
  ⟨by decide!, by decide!,
    ((landing_needs_negative_velocity (1 / 10) (Player.new.update (1 / 10) false)
      (by decide!)).1 (by decide!)).2.1,
    ((landing_needs_negative_velocity (1 / 10) Player.new rfl).2 rfl).2.1⟩

/-- C11 (as stated) fails: a fresh player is alive with `velocity.y = 0 ≤ 0`, and after
`update(0.1, true)` it is still not grounded. -/
theorem landing_at_zero_velocity_counterexample :
    Player.new.isDead = false ∧ Player.new.velocity.y ≤ 0 ∧
      (Player.new.update (1 / 10) true).isGrounded = false := by
  decide!

namespace Player

/-! ### The animation stage -/

/-- The texture shown after the animation stage: when the frame timer reaches its
threshold, the frame of the attack, jump, run, walk or idle array the code selects;
otherwise the one shown before. -/
theorem updateAnimation_map (dt : ℚ) (s : Player) :
    (updateAnimation dt s).sprite.map =
      if s.frameTime + dt ≥ (if s.isAttacking then attackSpeed else animationSpeed) then
        if s.isAttacking then
          textureAt (if s.isOnAir then Clip.jumpAttack else Clip.attack) s.attackDirection
            s.attackFrame
        else if s.isJumping then textureAt Clip.jump s.lastLookedDirection s.currentFrame
        else if s.movement.left || s.movement.right then
          textureAt (if s.isShiftPressed then Clip.run else Clip.walk) s.lastLookedDirection
            s.currentFrame
        else textureAt Clip.idle s.lastLookedDirection s.currentFrame
      else s.sprite.map := by
  unfold updateAnimation
  dsimp only
  split_ifs <;> rfl

/-- The frame counters and the attack flag after the animation stage. -/
theorem updateAnimation_frames (dt : ℚ) (s : Player) :
    (updateAnimation dt s).attackFrame =
        (if s.frameTime + dt ≥ (if s.isAttacking then attackSpeed else animationSpeed) ∧
            s.isAttacking = true then
          if s.attackFrame + 1 ≥ 10 then 0 else s.attackFrame + 1
        else s.attackFrame) ∧
      (updateAnimation dt s).isAttacking =
        (if s.frameTime + dt ≥ (if s.isAttacking then attackSpeed else animationSpeed) ∧
            s.isAttacking = true ∧ s.attackFrame + 1 ≥ 10 then false
        else s.isAttacking) ∧
      (updateAnimation dt s).currentFrame =
        (if s.frameTime + dt ≥ (if s.isAttacking then attackSpeed else animationSpeed) ∧
            s.isAttacking = false then (s.currentFrame + 1) % 10
        else s.currentFrame) ∧
      (updateAnimation dt s).frameTime =
        (if s.frameTime + dt ≥ (if s.isAttacking then attackSpeed else animationSpeed) then 0
        else s.frameTime + dt) := by
  unfold updateAnimation
  dsimp only
  by_cases hA : s.isAttacking = true
  · by_cases hT : s.frameTime + dt ≥ attackSpeed
    · by_cases h10 : s.attackFrame + 1 ≥ 10
      · simp [hA, hT, h10]
      · simp [hA, hT, h10]
    · simp [hA, hT]
  · have hA2 : s.isAttacking = false := by simpa using hA
    by_cases hT : s.frameTime + dt ≥ animationSpeed
    · by_cases hJ : s.isJumping = true
      · simp [hA2, hT, hJ]
      · by_cases hM : (s.movement.left || s.movement.right) = true
        · simp [hA2, hT, hJ, hM]
        · simp [hA2, hT, hJ, hM]
    · simp [hA2, hT]

/-- The fields read by the animation stage, as they are when it starts. -/
theorem beforeAnimation_fields (dt : ℚ) (b : Bool) (s : Player) :
    (updatePosition dt (updateVertical dt b (updateHorizontal b s))).frameTime = s.frameTime ∧
      (updatePosition dt (updateVertical dt b (updateHorizontal b s))).isAttacking = s.isAttacking ∧
      (updatePosition dt (updateVertical dt b (updateHorizontal b s))).isOnAir = (s.isJumping || !b) ∧
      (updatePosition dt (updateVertical dt b (updateHorizontal b s))).attackDirection = s.attackDirection ∧
      (updatePosition dt (updateVertical dt b (updateHorizontal b s))).attackFrame = s.attackFrame ∧
      (updatePosition dt (updateVertical dt b (updateHorizontal b s))).currentFrame = s.currentFrame ∧
      (updatePosition dt (updateVertical dt b (updateHorizontal b s))).movement = s.movement ∧
      (updatePosition dt (updateVertical dt b (updateHorizontal b s))).isShiftPressed = s.isShiftPressed ∧
      (updatePosition dt (updateVertical dt b (updateHorizontal b s))).sprite.map = s.sprite.map ∧
      (updatePosition dt (updateVertical dt b (updateHorizontal b s))).deathFrame = s.deathFrame := by
  have hH := updateHorizontal_kept b s
  have hV := updateVertical_kept dt b (updateHorizontal b s)
  have hO := updateHorizontal_isOnAir b s
  refine ⟨?_, ?_, ?_, ?_, ?_, ?_, ?_, ?_, ?_, ?_⟩
  · exact hV.2.2.2.2.2.2.2.1.trans hH.2.2.2.2.2.2.2.2.1
  · exact hV.2.2.2.1.trans hH.2.2.2.2.1
  · exact hV.2.2.1.trans hO
  · exact hV.2.2.2.2.1.trans hH.2.2.2.2.2.1
  · exact hV.2.2.2.2.2.1.trans hH.2.2.2.2.2.2.1
  · exact hV.2.2.2.2.2.2.1.trans hH.2.2.2.2.2.2.2.1
  · exact hV.2.2.2.2.2.2.2.2.1.trans hH.2.2.2.2.2.2.2.2.2.1
  · exact hV.2.2.2.2.2.2.2.2.2.1.trans hH.2.2.2.2.2.2.2.2.2.2.1
  · show (updateVertical dt b (updateHorizontal b s)).sprite.map = s.sprite.map
    rw [hV.2.2.2.2.2.2.2.2.2.2.2, hH.2.2.2.2.2.2.2.2.2.2.2.2]
  · exact hV.2.2.2.2.2.2.2.2.2.2.1.trans hH.2.2.2.2.2.2.2.2.2.2.2.1

/-- Air state after `update` on a living player: recomputed from `isJumping` as it was
before the call and from `isOnFloor`. -/
theorem update_alive_isOnAir (dt : ℚ) (b : Bool) (s : Player) (h : s.isDead = false) :
    (update dt b s).isOnAir = (s.isJumping || !b) := by
  rw [update_alive dt b s h, (updateAnimation_kept dt _).2.2.2.1]
  exact (beforeAnimation_fields dt b s).2.2.1

/-- Facing direction after `update` on a living player. -/
theorem update_alive_lastLookedDirection (dt : ℚ) (b : Bool) (s : Player)
    (h : s.isDead = false) :
    (update dt b s).lastLookedDirection =
      if s.isAttacking = true then s.lastLookedDirection
      else if s.movement.right = true then Direction.right
      else if s.movement.left = true then Direction.left else s.lastLookedDirection := by
  rw [update_alive dt b s h, (updateAnimation_kept dt _).2.2.1]
  show (updateVertical dt b (updateHorizontal b s)).lastLookedDirection = _
  rw [(updateVertical_kept dt b _).2.1, updateHorizontal_lastLookedDirection]

/-- The texture shown after `update` on a living player. `isJumping` and
`lastLookedDirection` are read after this tick's landing and facing update. -/
theorem update_alive_map (dt : ℚ) (b : Bool) (s : Player) (h : s.isDead = false) :
    (update dt b s).sprite.map =
      if s.frameTime + dt ≥ (if s.isAttacking then attackSpeed else animationSpeed) then
        if s.isAttacking then
          textureAt (if (s.isJumping || !b) then Clip.jumpAttack else Clip.attack)
            s.attackDirection s.attackFrame
        else if (update dt b s).isJumping then
          textureAt Clip.jump (update dt b s).lastLookedDirection s.currentFrame
        else if s.movement.left || s.movement.right then
          textureAt (if s.isShiftPressed then Clip.run else Clip.walk)
            (update dt b s).lastLookedDirection s.currentFrame
        else textureAt Clip.idle (update dt b s).lastLookedDirection s.currentFrame
      else s.sprite.map := by
  have hX := beforeAnimation_fields dt b s
  have hK := updateAnimation_kept dt (updatePosition dt (updateVertical dt b (updateHorizontal b s)))
  rw [update_alive dt b s h, updateAnimation_map, hK.2.1, hK.2.2.1, hX.1, hX.2.1, hX.2.2.1,
    hX.2.2.2.1, hX.2.2.2.2.1, hX.2.2.2.2.2.1, hX.2.2.2.2.2.2.1, hX.2.2.2.2.2.2.2.1,
    hX.2.2.2.2.2.2.2.2.1]

/-- The frame counters and the attack flag after `update` on a living player. -/
theorem update_alive_frames (dt : ℚ) (b : Bool) (s : Player) (h : s.isDead = false) :
    (update dt b s).attackFrame =
        (if s.frameTime + dt ≥ (if s.isAttacking then attackSpeed else animationSpeed) ∧
            s.isAttacking = true then
          if s.attackFrame + 1 ≥ 10 then 0 else s.attackFrame + 1
        else s.attackFrame) ∧
      (update dt b s).isAttacking =
        (if s.frameTime + dt ≥ (if s.isAttacking then attackSpeed else animationSpeed) ∧
            s.isAttacking = true ∧ s.attackFrame + 1 ≥ 10 then false
        else s.isAttacking) ∧
      (update dt b s).currentFrame =
        (if s.frameTime + dt ≥ (if s.isAttacking then attackSpeed else animationSpeed) ∧
            s.isAttacking = false then (s.currentFrame + 1) % 10
        else s.currentFrame) ∧
      (update dt b s).frameTime =
        (if s.frameTime + dt ≥ (if s.isAttacking then attackSpeed else animationSpeed) then 0
        else s.frameTime + dt) ∧
      (update dt b s).deathFrame = s.deathFrame := by
  have hX := beforeAnimation_fields dt b s
  have hF := updateAnimation_frames dt
    (updatePosition dt (updateVertical dt b (updateHorizontal b s)))
  have hK := updateAnimation_kept dt (updatePosition dt (updateVertical dt b (updateHorizontal b s)))
  rw [hX.1, hX.2.1, hX.2.2.2.2.1, hX.2.2.2.2.2.1] at hF
  rw [update_alive dt b s h]
  exact ⟨hF.1, hF.2.1, hF.2.2.1, hF.2.2.2, hK.2.2.2.2.2.2.2.1.trans hX.2.2.2.2.2.2.2.2.2⟩

end Player

/-- C12: on a living player, `update(deltaTime, false)` sets
`velocity.y' = velocity.y + (-20) * deltaTime` and
`position.y' = position.y + velocity.y' * deltaTime`; `update(deltaTime, true)` adds no
gravity: the vertical velocity is kept, or set to `0` when it was negative. -/
theorem gravity_integrated_only_off_floor (deltaTime : ℚ) (s : Player)
    (hAlive : s.isDead = false) :
    (s.update deltaTime false).velocity.y = s.velocity.y + (-20) * deltaTime ∧
      (s.update deltaTime false).position.y =
        s.position.y + (s.velocity.y + (-20) * deltaTime) * deltaTime ∧
      (s.update deltaTime true).velocity.y = (if s.velocity.y < 0 then 0 else s.velocity.y) ∧
      (s.update deltaTime true).position.y =
        s.position.y + (if s.velocity.y < 0 then 0 else s.velocity.y) * deltaTime := by
  have hF := Player.update_alive_vertical deltaTime false s hAlive
  have hT := Player.update_alive_vertical deltaTime true s hAlive
  have hF1 : (s.update deltaTime false).velocity.y = s.velocity.y + (-20) * deltaTime := by
    rw [hF.1]
    simp [Player.gravity]
  have hT1 : (s.update deltaTime true).velocity.y =
      (if s.velocity.y < 0 then 0 else s.velocity.y) := by
    rw [hT.1]
    simp
  refine ⟨hF1, ?_, hT1, ?_⟩
  · rw [hF.2.2.2, hF1]
  · rw [hT.2.2.2, hT1]

/-- A fresh player off the floor for a tenth of a second: `velocity.y = -2`. -/
theorem gravity_integrated_only_off_floor_witness :
    Player.new.isDead = false ∧
      (Player.new.update (1 / 10) false).velocity.y = Player.new.velocity.y + (-20) * (1 / 10) :=
  ⟨rfl, (gravity_integrated_only_off_floor (1 / 10) Player.new rfl).1⟩

/-- C13 (as amended): the air state of an attack is recomputed by every `update` as
`isJumping || !isOnFloor`; during an attack on a living player, movement is permitted
and the jump-attack clip is selected exactly when that value is true, whatever the air
state was when the attack began. -/
theorem attack_air_state_recomputed_each_update (deltaTime : ℚ) (isOnFloor : Bool)
    (s : Player) (hAlive : s.isDead = false) (hAttack : s.isAttacking = true) :
    (s.update deltaTime isOnFloor).isOnAir = (s.isJumping || !isOnFloor) ∧
      (s.update deltaTime isOnFloor).velocity.x =
        (if (s.isJumping || !isOnFloor) = true then
          if s.movement.right = true then s.moveSpeed
          else if s.movement.left = true then -s.moveSpeed else 0
        else 0) ∧
      (s.frameTime + deltaTime ≥ Player.attackSpeed →
        (s.update deltaTime isOnFloor).sprite.map =
          textureAt (if (s.isJumping || !isOnFloor) = true then Clip.jumpAttack else Clip.attack)
            s.attackDirection s.attackFrame) := by
  refine ⟨Player.update_alive_isOnAir deltaTime isOnFloor s hAlive, ?_, ?_⟩
  · rw [Player.update_alive_velocity_x deltaTime isOnFloor s hAlive,
      Player.updateHorizontal_velocity_x]
    simp [hAttack]
  · intro hT
    rw [Player.update_alive_map deltaTime isOnFloor s hAlive]
    simp [hAttack, hT]

/-- An attack begun while falling, then one tick on the floor: the ground-attack clip. -/
theorem attack_air_state_recomputed_each_update_witness :
    (((Player.new.update (1 / 10) false).startMoving Direction.right).handleAttack 400
        (ClickEvent.mk 500)).isDead = false ∧
      (((Player.new.update (1 / 10) false).startMoving Direction.right).handleAttack 400
        (ClickEvent.mk 500)).isAttacking = true ∧
      ((((Player.new.update (1 / 10) false).startMoving Direction.right).handleAttack 400
        (ClickEvent.mk 500)).update (1 / 20) true).sprite.map =
        textureAt (if ((((Player.new.update (1 / 10) false).startMoving Direction.right).handleAttack 400
        (ClickEvent.mk 500)).isJumping || !true) = true then Clip.jumpAttack else Clip.attack)
          (((Player.new.update (1 / 10) false).startMoving Direction.right).handleAttack 400
        (ClickEvent.mk 500)).attackDirection
          (((Player.new.update (1 / 10) false).startMoving Direction.right).handleAttack 400
        (ClickEvent.mk 500)).attackFrame :=
  ⟨by decide!, by decide!,
    (attack_air_state_recomputed_each_update (1 / 20) true
      (((Player.new.update (1 / 10) false).startMoving Direction.right).handleAttack 400
        (ClickEvent.mk 500)) (by decide!) (by decide!)).2.2 (by decide!)⟩

/-- C13 (as stated) fails: a player that is falling (`isOnAir` true) and holds `right`
starts an attack; at the next `update`, called with `isOnFloor = true` while `isJumping`
is false, the attack is still in progress but the player does not move and the
ground-attack clip is shown. -/
theorem airborne_attack_not_kept_counterexample :
    (((Player.new.update (1 / 10) false).startMoving Direction.right).handleAttack 400
        (ClickEvent.mk 500)).isOnAir = true ∧
      (((Player.new.update (1 / 10) false).startMoving Direction.right).handleAttack 400
        (ClickEvent.mk 500)).isJumping = false ∧
      (((Player.new.update (1 / 10) false).startMoving Direction.right).handleAttack 400
        (ClickEvent.mk 500)).movement.right = true ∧
      0 < (((Player.new.update (1 / 10) false).startMoving Direction.right).handleAttack 400
        (ClickEvent.mk 500)).moveSpeed ∧
      ((((Player.new.update (1 / 10) false).startMoving Direction.right).handleAttack 400
        (ClickEvent.mk 500)).update (1 / 20) true).isAttacking = true ∧
      ((((Player.new.update (1 / 10) false).startMoving Direction.right).handleAttack 400
        (ClickEvent.mk 500)).update (1 / 20) true).velocity.x = 0 ∧
      ((((Player.new.update (1 / 10) false).startMoving Direction.right).handleAttack 400
        (ClickEvent.mk 500)).update (1 / 20) true).sprite.map = textureAt Clip.attack Direction.right 0 ∧
      ((((Player.new.update (1 / 10) false).startMoving Direction.right).handleAttack 400
        (ClickEvent.mk 500)).update (1 / 20) true).sprite.map ≠ textureAt Clip.jumpAttack Direction.right 0 := by
  decide!

namespace Player

/-- The dead branch of `update` writes only the frame timer, the death frame, the
completion flag, the shown texture and the death-menu count. -/
theorem updateDead_kept (dt : ℚ) (s : Player) :
    (updateDead dt s).position = s.position ∧ (updateDead dt s).velocity = s.velocity ∧
      (updateDead dt s).isAttacking = s.isAttacking ∧
      (updateDead dt s).attackDirection = s.attackDirection ∧
      (updateDead dt s).lastLookedDirection = s.lastLookedDirection ∧
      (updateDead dt s).attackFrame = s.attackFrame ∧
      (updateDead dt s).currentFrame = s.currentFrame := by
  unfold updateDead
  dsimp only
  split_ifs <;> exact ⟨rfl, rfl, rfl, rfl, rfl, rfl, rfl⟩

theorem update_dead (dt : ℚ) (b : Bool) (s : Player) (h : s.isDead = true) :
    update dt b s = updateDead dt s := by
  simp [update, h]

end Player

/-- C14 (as amended): on a dead player `update` and `stopMoving` leave position,
velocity, `isAttacking`, `attackDirection` and `lastLookedDirection` unchanged, and no
operation changes the position; `jump` leaves all of them but `velocity.y` unchanged,
`startMoving` all of them but `lastLookedDirection`, and `handleAttack` leaves position
and velocity unchanged. -/
theorem dead_player_position_frozen (s : Player) (hDead : s.isDead = true) (deltaTime : ℚ)
    (isOnFloor : Bool) (d : Direction) (playerScreenX : ℚ) (event : ClickEvent) :
    ((s.update deltaTime isOnFloor).position = s.position ∧
        (s.update deltaTime isOnFloor).velocity = s.velocity ∧
        (s.update deltaTime isOnFloor).isAttacking = s.isAttacking ∧
        (s.update deltaTime isOnFloor).attackDirection = s.attackDirection ∧
        (s.update deltaTime isOnFloor).lastLookedDirection = s.lastLookedDirection) ∧
      ((s.stopMoving d).position = s.position ∧ (s.stopMoving d).velocity = s.velocity ∧
        (s.stopMoving d).isAttacking = s.isAttacking ∧
        (s.stopMoving d).attackDirection = s.attackDirection ∧
        (s.stopMoving d).lastLookedDirection = s.lastLookedDirection) ∧
      (s.jump.position = s.position ∧ s.jump.velocity.x = s.velocity.x ∧
        s.jump.velocity.z = s.velocity.z ∧ s.jump.isAttacking = s.isAttacking ∧
        s.jump.attackDirection = s.attackDirection ∧
        s.jump.lastLookedDirection = s.lastLookedDirection) ∧
      ((s.startMoving d).position = s.position ∧ (s.startMoving d).velocity = s.velocity ∧
        (s.startMoving d).isAttacking = s.isAttacking ∧
        (s.startMoving d).attackDirection = s.attackDirection) ∧
      ((s.handleAttack playerScreenX event).position = s.position ∧
        (s.handleAttack playerScreenX event).velocity = s.velocity) := by
  have hU := Player.updateDead_kept deltaTime s
  rw [Player.update_dead deltaTime isOnFloor s hDead]
  refine ⟨⟨hU.1, hU.2.1, hU.2.2.1, hU.2.2.2.1, hU.2.2.2.2.1⟩, ⟨rfl, rfl, rfl, rfl, rfl⟩, ?_,
    ⟨rfl, rfl, rfl, rfl⟩, ?_⟩
  · unfold Player.jump
    split_ifs <;> exact ⟨rfl, rfl, rfl, rfl, rfl, rfl⟩
  · unfold Player.handleAttack
    dsimp only
    split_ifs <;> exact ⟨rfl, rfl⟩

/-- A fresh player that has died keeps its position under `update`. -/
theorem dead_player_position_frozen_witness :
    Player.new.die.isDead = true ∧
      (Player.new.die.update (1 / 10) false).position = Player.new.die.position :=
  ⟨rfl, (dead_player_position_frozen Player.new.die rfl (1 / 10) false Direction.left 400
    (ClickEvent.mk 100)).1.1⟩

/-- C14 (as stated) fails: on a dead player that had landed, `jump()` sets `velocity.y`
to `10`; on a dead player `startMoving('left')` changes `lastLookedDirection`, and a
click left of the player sets `isAttacking`, `attackDirection` and
`lastLookedDirection`. -/
theorem dead_player_input_not_frozen_counterexample :
    (((Player.new.update (1 / 10) false).update (1 / 10) true).die).isDead = true ∧
      (((Player.new.update (1 / 10) false).update (1 / 10) true).die).jump.velocity ≠ (((Player.new.update (1 / 10) false).update (1 / 10) true).die).velocity ∧
      (((Player.new.update (1 / 10) false).update (1 / 10) true).die).jump.velocity.y = 10 ∧
      Player.new.die.isDead = true ∧
      (Player.new.die.startMoving Direction.left).lastLookedDirection ≠
        Player.new.die.lastLookedDirection ∧
      (Player.new.die.handleAttack 400 (ClickEvent.mk 100)).isAttacking ≠
        Player.new.die.isAttacking ∧
      (Player.new.die.handleAttack 400 (ClickEvent.mk 100)).attackDirection ≠
        Player.new.die.attackDirection ∧
      (Player.new.die.handleAttack 400 (ClickEvent.mk 100)).lastLookedDirection ≠
        Player.new.die.lastLookedDirection := by
  decide!

/-- C15 (as amended): when both movement flags are set on a living player that may
move, the assignment for `right` overrides the one for `left`: after `update` the
horizontal velocity is `moveSpeed` and `position.x` has grown by `moveSpeed * deltaTime`.
This holds whenever `right` is set, whatever the `left` flag is. -/
theorem both_flags_right_overrides_left (deltaTime : ℚ) (isOnFloor : Bool) (s : Player)
    (hAlive : s.isDead = false) (hRight : s.movement.right = true)
    (hCanMove : s.isAttacking = false ∨ s.isJumping = true ∨ isOnFloor = false) :
    (s.update deltaTime isOnFloor).velocity.x = s.moveSpeed ∧
      (s.update deltaTime isOnFloor).position.x = s.position.x + s.moveSpeed * deltaTime := by
  have hv : (Player.updateHorizontal isOnFloor s).velocity.x = s.moveSpeed := by
    rw [Player.updateHorizontal_velocity_x]
    have hcan : (!s.isAttacking || (s.isJumping || !isOnFloor)) = true := by
      rcases hCanMove with h | h | h <;> simp [h]
    rw [if_pos hcan, if_pos hRight]
  rw [Player.update_alive_velocity_x deltaTime isOnFloor s hAlive,
    Player.update_alive_position_x deltaTime isOnFloor s hAlive, hv]
  exact ⟨rfl, rfl⟩

/-- A fresh player holding both `left` and `right` moves right at speed `3`. -/
theorem both_flags_right_overrides_left_witness :
    ((Player.new.startMoving Direction.left).startMoving Direction.right).isDead = false ∧
      ((Player.new.startMoving Direction.left).startMoving Direction.right).movement.left
        = true ∧
      ((Player.new.startMoving Direction.left).startMoving Direction.right).movement.right
        = true ∧
      (((Player.new.startMoving Direction.left).startMoving Direction.right).update (1 / 10)
        true).velocity.x =
        ((Player.new.startMoving Direction.left).startMoving Direction.right).moveSpeed :=
  ⟨rfl, rfl, rfl,
    (both_flags_right_overrides_left (1 / 10) true
      ((Player.new.startMoving Direction.left).startMoving Direction.right) rfl rfl
      (Or.inl rfl)).1⟩

/-- C15 (as stated) fails: a fresh player (alive, not attacking) with both flags set
has, after `update(0.1, true)`, horizontal velocity `3` and `position.x = 3/10`. -/
theorem both_flags_do_not_cancel_counterexample :
    ((Player.new.startMoving Direction.left).startMoving Direction.right).movement.left
        = true ∧
      ((Player.new.startMoving Direction.left).startMoving Direction.right).movement.right
        = true ∧
      ((Player.new.startMoving Direction.left).startMoving Direction.right).isAttacking
        = false ∧
      (((Player.new.startMoving Direction.left).startMoving Direction.right).update (1 / 10)
        true).velocity.x = 3 ∧
      (((Player.new.startMoving Direction.left).startMoving Direction.right).update (1 / 10)
        true).velocity.x ≠ 0 ∧
      (((Player.new.startMoving Direction.left).startMoving Direction.right).update (1 / 10)
        true).position.x ≠
        ((Player.new.startMoving Direction.left).startMoving Direction.right).position.x := by
  decide!

/-- C16 (as amended): `handleAttack` leaves `lastLookedDirection` unchanged when an
attack is already in progress; when it starts an attack it sets `lastLookedDirection`
to the attack direction, `left` for a click left of the player and `right` otherwise.
While the attack lasts, `update` on a living player does not change it, and
`startMoving(d)` sets it to `d`. -/
theorem handleAttack_sets_lastLookedDirection (playerScreenX : ℚ) (event : ClickEvent)
    (s : Player) :
    (s.isAttacking = true →
        (s.handleAttack playerScreenX event).lastLookedDirection = s.lastLookedDirection) ∧
      (s.isAttacking = false →
        (s.handleAttack playerScreenX event).lastLookedDirection =
            (if event.clientX < playerScreenX then Direction.left else Direction.right) ∧
          (s.handleAttack playerScreenX event).lastLookedDirection =
            (s.handleAttack playerScreenX event).attackDirection) ∧
      (∀ (deltaTime : ℚ) (isOnFloor : Bool), s.isDead = false → s.isAttacking = true →
        (s.update deltaTime isOnFloor).lastLookedDirection = s.lastLookedDirection) ∧
      (∀ d : Direction, (s.startMoving d).lastLookedDirection = d) := by
  refine ⟨?_, ?_, ?_, fun d => rfl⟩
  · intro h
    simp [Player.handleAttack, h]
  · intro h
    simp [Player.handleAttack, h]
  · intro dt b hAlive hAttack
    rw [Player.update_alive_lastLookedDirection dt b s hAlive, if_pos hAttack]

/-- A fresh player looks right; a click left of it starts an attack and turns it left. -/
theorem handleAttack_sets_lastLookedDirection_witness :
    Player.new.isAttacking = false ∧
      (Player.new.handleAttack 400 (ClickEvent.mk 100)).lastLookedDirection =
        (if (ClickEvent.mk 100).clientX < (400 : ℚ) then Direction.left else Direction.right) ∧
      ((Player.new.handleAttack 400 (ClickEvent.mk 100)).handleAttack 400
        (ClickEvent.mk 500)).lastLookedDirection =
        (Player.new.handleAttack 400 (ClickEvent.mk 100)).lastLookedDirection :=
  ⟨rfl,
    ((handleAttack_sets_lastLookedDirection 400 (ClickEvent.mk 100) Player.new).2.1 rfl).1,
    (handleAttack_sets_lastLookedDirection 400 (ClickEvent.mk 500)
      (Player.new.handleAttack 400 (ClickEvent.mk 100))).1 rfl⟩

/-- C16 (as stated) fails: a fresh player has `lastLookedDirection = 'right'`; after a
click left of the player, `handleAttack` has set it to `'left'`. -/
theorem handleAttack_changes_lastLookedDirection_counterexample :
    Player.new.lastLookedDirection = Direction.right ∧
      (Player.new.handleAttack 400 (ClickEvent.mk 100)).lastLookedDirection = Direction.left ∧
      (Player.new.handleAttack 400 (ClickEvent.mk 100)).lastLookedDirection ≠
        Player.new.lastLookedDirection := by
  decide!

/-- C17, the code at the failing input: with shift held, `startMoving` sets
`moveSpeed = 3 * 1.5 = 4.5`, not the run speed `3 * 1.3 = 3.9` that the shift listener
sets, and `update` applies it; pressing shift after `startMoving` gives `3.9`. With
shift released the speed is `3` in either order. -/
theorem run_speed_depends_on_event_order :
    (Player.new.run [Player.Op.shiftKeyDown, Player.Op.startMoving Direction.right]).isShiftPressed
        = true ∧
      (Player.new.run [Player.Op.shiftKeyDown, Player.Op.startMoving Direction.right]).moveSpeed
        = 3 * (15 / 10) ∧
      (Player.new.run [Player.Op.shiftKeyDown, Player.Op.startMoving Direction.right]).moveSpeed
        ≠ 3 * (13 / 10) ∧
      ((Player.new.run [Player.Op.shiftKeyDown, Player.Op.startMoving Direction.right]).update
        (1 / 10) true).velocity.x = 9 / 2 ∧
      (Player.new.run [Player.Op.startMoving Direction.right, Player.Op.shiftKeyDown]).isShiftPressed
        = true ∧
      (Player.new.run [Player.Op.startMoving Direction.right, Player.Op.shiftKeyDown]).moveSpeed
        = 3 * (13 / 10) ∧
      (Player.new.run [Player.Op.shiftKeyDown, Player.Op.startMoving Direction.right,
        Player.Op.shiftKeyUp]).moveSpeed = 3 ∧
      (Player.new.run [Player.Op.shiftKeyDown, Player.Op.shiftKeyUp,
        Player.Op.startMoving Direction.right]).moveSpeed = 3 := by
  decide!

namespace Player

/-- The frame counter, completion flag and texture written by the dead branch of
`update`. -/
theorem updateDead_frames (dt : ℚ) (s : Player) :
    (updateDead dt s).deathFrame =
        (if s.frameTime + dt ≥ deathSpeed ∧ s.deathAnimationComplete = false then
          s.deathFrame + 1
        else s.deathFrame) ∧
      (updateDead dt s).deathAnimationComplete =
        (if (s.frameTime + dt ≥ deathSpeed ∧ s.deathAnimationComplete = false) ∧
            s.deathFrame + 1 ≥ 10 then true
        else s.deathAnimationComplete) ∧
      (updateDead dt s).sprite.map =
        (if s.frameTime + dt ≥ deathSpeed ∧ s.deathAnimationComplete = false then
          textureAt Clip.dead s.lastLookedDirection s.deathFrame
        else s.sprite.map) := by
  unfold updateDead
  dsimp only
  by_cases hT : s.frameTime + dt ≥ deathSpeed ∧ s.deathAnimationComplete = false
  · by_cases h10 : s.deathFrame + 1 ≥ 10
    · rw [if_pos hT, if_pos h10, if_pos hT, if_pos ⟨hT, h10⟩, if_pos hT]
      exact ⟨rfl, rfl, rfl⟩
    · rw [if_pos hT, if_neg h10, if_pos hT, if_neg (fun hx => h10 hx.2), if_pos hT]
      exact ⟨rfl, rfl, rfl⟩
  · rw [if_neg hT, if_neg hT, if_neg (fun hx => hT hx.1), if_neg hT]
    exact ⟨rfl, rfl, rfl⟩

end Player

/-- C18: on a tick at which the frame timer reaches its threshold, the texture shown
is the frame of the clip the precedence Dead > Attacking (jump-attack when airborne at
this tick, else ground attack) > Jumping > Run or Walk (a movement flag set) > Idle
gives, in the direction `attackDirection` for the attack clips and `lastLookedDirection`
for the others; on a tick at which it does not, the texture and the three frame indices
are unchanged. `isJumping` and `lastLookedDirection` are the values this tick's landing
and facing update produce, given in the last part; the dead branch selects a frame only
while the death animation is not complete. -/
theorem clip_selection_follows_precedence (deltaTime : ℚ) (isOnFloor : Bool) (s : Player) :
    (s.isDead = false →
        s.frameTime + deltaTime ≥
          (if s.isAttacking then Player.attackSpeed else Player.animationSpeed) →
        (s.update deltaTime isOnFloor).sprite.map =
          textureAt
            (Player.specClipPrecedence s.isDead s.isAttacking (s.isJumping || !isOnFloor)
              (s.update deltaTime isOnFloor).isJumping (s.movement.left || s.movement.right)
              s.isShiftPressed)
            (if s.isAttacking then s.attackDirection
              else (s.update deltaTime isOnFloor).lastLookedDirection)
            (if s.isAttacking then s.attackFrame else s.currentFrame)) ∧
      (s.isDead = true → s.frameTime + deltaTime ≥ Player.deathSpeed →
        s.deathAnimationComplete = false →
        (s.update deltaTime isOnFloor).sprite.map =
          textureAt
            (Player.specClipPrecedence s.isDead s.isAttacking (s.isJumping || !isOnFloor)
              s.isJumping (s.movement.left || s.movement.right) s.isShiftPressed)
            s.lastLookedDirection s.deathFrame) ∧
      (s.isDead = false →
        s.frameTime + deltaTime <
          (if s.isAttacking then Player.attackSpeed else Player.animationSpeed) →
        (s.update deltaTime isOnFloor).sprite.map = s.sprite.map ∧
          (s.update deltaTime isOnFloor).currentFrame = s.currentFrame ∧
          (s.update deltaTime isOnFloor).attackFrame = s.attackFrame ∧
          (s.update deltaTime isOnFloor).deathFrame = s.deathFrame) ∧
      (s.isDead = true →
        ¬ (s.frameTime + deltaTime ≥ Player.deathSpeed ∧ s.deathAnimationComplete = false) →
        (s.update deltaTime isOnFloor).sprite.map = s.sprite.map ∧
          (s.update deltaTime isOnFloor).currentFrame = s.currentFrame ∧
          (s.update deltaTime isOnFloor).attackFrame = s.attackFrame ∧
          (s.update deltaTime isOnFloor).deathFrame = s.deathFrame) ∧
      (s.isDead = false →
        (s.update deltaTime isOnFloor).isJumping =
            (if isOnFloor = true ∧ s.velocity.y < 0 then false else s.isJumping) ∧
          (s.isAttacking = false →
            (s.update deltaTime isOnFloor).lastLookedDirection =
              (if s.movement.right = true then Direction.right
                else if s.movement.left = true then Direction.left
                else s.lastLookedDirection))) := by
  refine ⟨?_, ?_, ?_, ?_, ?_⟩
  · intro hAlive hT
    rw [Player.update_alive_map deltaTime isOnFloor s hAlive, if_pos hT]
    unfold Player.specClipPrecedence
    rw [hAlive]
    by_cases hA : s.isAttacking = true
    · simp [hA]
    · have hA2 : s.isAttacking = false := by simpa using hA
      by_cases hJ : (s.update deltaTime isOnFloor).isJumping = true
      · simp [hA2, hJ]
      · by_cases hM : (s.movement.left || s.movement.right) = true
        · simp only [hA2, hJ, hM]
          simp
        · simp only [hA2, hJ, hM]
          simp
  · intro hDead hT hC
    rw [Player.update_dead deltaTime isOnFloor s hDead,
      (Player.updateDead_frames deltaTime s).2.2, if_pos ⟨hT, hC⟩]
    simp [Player.specClipPrecedence, hDead]
  · intro hAlive hT
    have hT2 : ¬ s.frameTime + deltaTime ≥
        (if s.isAttacking then Player.attackSpeed else Player.animationSpeed) := not_le.2 hT
    have hF := Player.update_alive_frames deltaTime isOnFloor s hAlive
    rw [Player.update_alive_map deltaTime isOnFloor s hAlive, if_neg hT2, hF.1, hF.2.2.1,
      hF.2.2.2.2, if_neg (fun hx => hT2 hx.1), if_neg (fun hx => hT2 hx.1)]
    exact ⟨rfl, rfl, rfl, rfl⟩
  · intro hDead hT
    have hF := Player.updateDead_frames deltaTime s
    have hK := Player.updateDead_kept deltaTime s
    rw [Player.update_dead deltaTime isOnFloor s hDead, hF.1, hF.2.2, if_neg hT, if_neg hT]
    exact ⟨rfl, hK.2.2.2.2.2.2, hK.2.2.2.2.2.1, rfl⟩
  · intro hAlive
    refine ⟨(Player.update_alive_vertical deltaTime isOnFloor s hAlive).2.2.1, ?_⟩
    intro hA
    rw [Player.update_alive_lastLookedDirection deltaTime isOnFloor s hAlive]
    simp [hA]

/-- A fresh player after one tick of a tenth of a second on the floor shows the first
idle frame, facing right. -/
theorem clip_selection_follows_precedence_witness :
    Player.new.isDead = false ∧
      Player.new.frameTime + 1 / 10 ≥
        (if Player.new.isAttacking then Player.attackSpeed else Player.animationSpeed) ∧
      (Player.new.update (1 / 10) true).sprite.map =
        textureAt
          (Player.specClipPrecedence Player.new.isDead Player.new.isAttacking
            (Player.new.isJumping || !true) (Player.new.update (1 / 10) true).isJumping
            (Player.new.movement.left || Player.new.movement.right) Player.new.isShiftPressed)
          (if Player.new.isAttacking then Player.new.attackDirection
            else (Player.new.update (1 / 10) true).lastLookedDirection)
          (if Player.new.isAttacking then Player.new.attackFrame else Player.new.currentFrame) :=
  ⟨rfl, by decide!,
    (clip_selection_follows_precedence (1 / 10) true Player.new).1 rfl (by decide!)⟩

namespace Player

/-! ### Frame indices -/

theorem textureAt_isSome (clip : Clip) (dir : Direction) (i : ℕ) (h : i ≤ 9) :
    (textureAt clip dir i).isSome = true := by
  have h10 : i < 10 := by omega
  simp [textureAt, h10]

/-- The texture `update` shows is the element at `lookupIndex` of some array when an
array is read, and the texture shown before when none is. -/
theorem update_map_of_lookupIndex (dt : ℚ) (b : Bool) (s : Player) :
    (lookupIndex dt s = none → (update dt b s).sprite.map = s.sprite.map) ∧
      (∀ i : ℕ, lookupIndex dt s = some i →
        ∃ (clip : Clip) (dir : Direction), (update dt b s).sprite.map = textureAt clip dir i) := by
  unfold lookupIndex
  by_cases hD : s.isDead = true
  · rw [update_dead dt b s hD, (updateDead_frames dt s).2.2, if_pos hD]
    by_cases hT : s.frameTime + dt ≥ deathSpeed ∧ s.deathAnimationComplete = false
    · rw [if_pos hT, if_pos hT]
      refine ⟨fun hx => Option.noConfusion hx, ?_⟩
      intro i hi
      cases hi
      exact ⟨Clip.dead, s.lastLookedDirection, rfl⟩
    · rw [if_neg hT, if_neg hT]
      exact ⟨fun _ => rfl, fun i hi => Option.noConfusion hi⟩
  · have hD2 : s.isDead = false := by simpa using hD
    rw [update_alive_map dt b s hD2, if_neg hD]
    by_cases hT : s.frameTime + dt ≥ (if s.isAttacking then attackSpeed else animationSpeed)
    · rw [if_pos hT, if_pos hT]
      refine ⟨fun hx => Option.noConfusion hx, ?_⟩
      intro i hi
      cases hi
      split_ifs <;> exact ⟨_, _, rfl⟩
    · rw [if_neg hT, if_neg hT]
      exact ⟨fun _ => rfl, fun i hi => Option.noConfusion hi⟩

/-- The frame-index bounds are kept by `update`. -/
theorem update_frames_invariant (dt : ℚ) (b : Bool) (s : Player)
    (h : s.currentFrame ≤ 9 ∧ s.attackFrame ≤ 9 ∧ s.deathFrame ≤ 10 ∧
      (s.deathAnimationComplete = false → s.deathFrame ≤ 9) ∧
      s.sprite.map.isSome = true) :
    (update dt b s).currentFrame ≤ 9 ∧ (update dt b s).attackFrame ≤ 9 ∧ (update dt b s).deathFrame ≤ 10 ∧
      ((update dt b s).deathAnimationComplete = false → (update dt b s).deathFrame ≤ 9) ∧
      (update dt b s).sprite.map.isSome = true := by
  obtain ⟨hc, ha, hd, hcd, hm⟩ := h
  by_cases hD : s.isDead = true
  · have hF := updateDead_frames dt s
    have hK := updateDead_kept dt s
    rw [update_dead dt b s hD, hF.1, hF.2.1, hF.2.2, hK.2.2.2.2.2.2, hK.2.2.2.2.2.1]
    by_cases hT : s.frameTime + dt ≥ deathSpeed ∧ s.deathAnimationComplete = false
    · have h9 := hcd hT.2
      rw [if_pos hT, if_pos hT]
      refine ⟨hc, ha, by omega, ?_, textureAt_isSome _ _ _ h9⟩
      by_cases h10 : s.deathFrame + 1 ≥ 10
      · rw [if_pos ⟨hT, h10⟩]
        intro hx
        exact Bool.noConfusion hx
      · intro _
        omega
    · rw [if_neg hT, if_neg hT, if_neg (fun hx => hT hx.1)]
      exact ⟨hc, ha, hd, hcd, hm⟩
  · have hD2 : s.isDead = false := by simpa using hD
    have hF := update_alive_frames dt b s hD2
    have hX := update_alive_death_fields dt b s hD2
    rw [hF.1, hF.2.2.1, hF.2.2.2.2, hX.2.1, update_alive_map dt b s hD2]
    refine ⟨?_, ?_, hd, hcd, ?_⟩
    · have hmod : (s.currentFrame + 1) % 10 ≤ 9 :=
        Nat.le_of_lt_succ (Nat.mod_lt (s.currentFrame + 1) (by norm_num))
      split_ifs <;> first | exact hc | exact hmod
    · split_ifs <;> omega
    · split_ifs <;>
        first
        | exact textureAt_isSome _ _ _ ha
        | exact textureAt_isSome _ _ _ hc
        | exact hm

/-- The frame-index bounds are kept by every operation. -/
theorem step_frames_invariant (s : Player) (op : Op)
    (h : s.currentFrame ≤ 9 ∧ s.attackFrame ≤ 9 ∧ s.deathFrame ≤ 10 ∧
      (s.deathAnimationComplete = false → s.deathFrame ≤ 9) ∧
      s.sprite.map.isSome = true) :
    (s.step op).currentFrame ≤ 9 ∧ (s.step op).attackFrame ≤ 9 ∧ (s.step op).deathFrame ≤ 10 ∧
      ((s.step op).deathAnimationComplete = false → (s.step op).deathFrame ≤ 9) ∧
      (s.step op).sprite.map.isSome = true := by
  cases op with
  | update dt b => exact update_frames_invariant dt b s h
  | jump =>
    obtain ⟨hc, ha, hd, hcd, hm⟩ := h
    simp only [step, jump]
    split_ifs
    · exact ⟨Nat.zero_le _, ha, hd, hcd, hm⟩
    · exact ⟨hc, ha, hd, hcd, hm⟩
  | startMoving d => exact h
  | stopMoving d => exact h
  | handleAttack x e =>
    obtain ⟨hc, ha, hd, hcd, hm⟩ := h
    simp only [step, handleAttack]
    split_ifs
    · exact ⟨hc, ha, hd, hcd, hm⟩
    · exact ⟨hc, Nat.zero_le _, hd, hcd, hm⟩
    · exact ⟨hc, Nat.zero_le _, hd, hcd, hm⟩
  | die =>
    obtain ⟨hc, ha, hd, hcd, hm⟩ := h
    simp only [step, die]
    split_ifs
    · exact ⟨hc, ha, hd, hcd, hm⟩
    · exact ⟨hc, ha, Nat.zero_le _, fun _ => Nat.zero_le _, hm⟩
  | shiftKeyDown => exact h
  | shiftKeyUp => exact h

theorem run_frames_invariant (ops : List Op) (s : Player)
    (h : s.currentFrame ≤ 9 ∧ s.attackFrame ≤ 9 ∧ s.deathFrame ≤ 10 ∧
      (s.deathAnimationComplete = false → s.deathFrame ≤ 9) ∧
      s.sprite.map.isSome = true) :
    (s.run ops).currentFrame ≤ 9 ∧ (s.run ops).attackFrame ≤ 9 ∧ (s.run ops).deathFrame ≤ 10 ∧
      ((s.run ops).deathAnimationComplete = false → (s.run ops).deathFrame ≤ 9) ∧
      (s.run ops).sprite.map.isSome = true := by
  induction ops generalizing s with
  | nil => exact h
  | cons op rest ih => exact ih (s.step op) (step_frames_invariant s op h)

end Player

/-- C19: in every state reached from a fresh player by `update`, `jump`, `startMoving`,
`stopMoving`, `handleAttack`, `die` and the shift key events, `currentFrame ≤ 9`,
`attackFrame ≤ 9` and `deathFrame ≤ 10`; the index with which a following `update` reads
a texture array is at most `9`, and the texture shown is never `undefined`. -/
theorem frame_indices_stay_in_range (ops : List Player.Op) :
    (Player.new.run ops).currentFrame ≤ 9 ∧ (Player.new.run ops).attackFrame ≤ 9 ∧
      (Player.new.run ops).deathFrame ≤ 10 ∧
      (∀ (deltaTime : ℚ) (i : ℕ),
        (Player.new.run ops).lookupIndex deltaTime = some i → i ≤ 9) ∧
      (Player.new.run ops).sprite.map.isSome = true ∧
      (∀ (deltaTime : ℚ) (isOnFloor : Bool),
        ((Player.new.run ops).update deltaTime isOnFloor).sprite.map.isSome = true) := by
  have h := Player.run_frames_invariant ops Player.new
    ⟨Nat.zero_le _, Nat.zero_le _, Nat.zero_le _, fun _ => Nat.zero_le _, rfl⟩
  refine ⟨h.1, h.2.1, h.2.2.1, ?_, h.2.2.2.2, ?_⟩
  · intro dt i hi
    unfold Player.lookupIndex at hi
    split_ifs at hi with hD hT hT2 hA
    · cases hi
      exact h.2.2.2.1 hT.2
    · cases hi
      exact h.2.1
    · cases hi
      exact h.1
  · intro dt b
    exact (Player.update_frames_invariant dt b _ h).2.2.2.2

/-- A fresh player dies and is ticked nine times at the death cadence: the next tick
reads the death array at index nine. -/
theorem frame_indices_stay_in_range_witness :
    (Player.new.run
        (Player.Op.die :: List.replicate 9 (Player.Op.update (15 / 100) true))).lookupIndex
        (15 / 100) = some 9 ∧
      (9 : ℕ) ≤ 9 :=
  ⟨by decide!,
    (frame_indices_stay_in_range
      (Player.Op.die :: List.replicate 9 (Player.Op.update (15 / 100) true))).2.2.2.1
      (15 / 100) 9 (by decide!)⟩

namespace Player

/-! ### The attack sequence -/

/-- One tick of at least the attack cadence on a living, attacking player: the frame
timer has reached the threshold, so the attack frame advances, and the attack ends
exactly when the frame reaches ten. -/
theorem update_attack_tick (dt : ℚ) (b : Bool) (p : Player) (hAlive : p.isDead = false)
    (hA : p.isAttacking = true) (ht : 0 ≤ p.frameTime) (hdt : attackSpeed ≤ dt) :
    (update dt b p).isDead = false ∧ (update dt b p).frameTime = 0 ∧
      (update dt b p).attackFrame = (if p.attackFrame + 1 ≥ 10 then 0 else p.attackFrame + 1) ∧
      (update dt b p).isAttacking = (if p.attackFrame + 1 ≥ 10 then false else true) := by
  have hF := update_alive_frames dt b p hAlive
  have hX := update_alive_death_fields dt b p hAlive
  have hT : p.frameTime + dt ≥ (if p.isAttacking then attackSpeed else animationSpeed) := by
    rw [if_pos hA]
    linarith
  refine ⟨hX.1.trans hAlive, ?_, ?_, ?_⟩
  · rw [hF.2.2.2.1, if_pos hT]
  · rw [hF.1, if_pos ⟨hT, hA⟩]
  · rw [hF.2.1]
    by_cases h10 : p.attackFrame + 1 ≥ 10
    · rw [if_pos ⟨hT, hA, h10⟩, if_pos h10]
    · rw [if_neg (fun hx => h10 hx.2.2), if_neg h10]
      exact hA

/-- A click on a player that is not attacking starts an attack at frame zero. -/
theorem handleAttack_starts (x : ℚ) (e : ClickEvent) (p : Player)
    (h : p.isAttacking = false) :
    (p.handleAttack x e).isAttacking = true ∧ (p.handleAttack x e).attackFrame = 0 ∧
      (p.handleAttack x e).isDead = p.isDead ∧ (p.handleAttack x e).frameTime = p.frameTime := by
  simp [handleAttack, h]

theorem updatesWith_append (xs ys : List (ℚ × Bool)) (p : Player) :
    p.updatesWith (xs ++ ys) = (p.updatesWith xs).updatesWith ys := by
  simp [updatesWith, List.foldl_append]

/-- While fewer than ten attack frames have been shown, ticks of at least the attack
cadence advance `attackFrame` by one each and the attack goes on. -/
theorem updatesWith_attack_progress (ticks : List (ℚ × Bool)) (p : Player)
    (hAlive : p.isDead = false) (hA : p.isAttacking = true) (ht : 0 ≤ p.frameTime)
    (hdt : ∀ t ∈ ticks, attackSpeed ≤ t.1) (hlt : p.attackFrame + ticks.length < 10) :
    (p.updatesWith ticks).isDead = false ∧ (p.updatesWith ticks).isAttacking = true ∧
      0 ≤ (p.updatesWith ticks).frameTime ∧
      (p.updatesWith ticks).attackFrame = p.attackFrame + ticks.length := by
  induction ticks generalizing p with
  | nil => exact ⟨hAlive, hA, ht, rfl⟩
  | cons t rest ih =>
    have hlen : p.attackFrame + (rest.length + 1) < 10 := by simpa using hlt
    have hnot : ¬ p.attackFrame + 1 ≥ 10 := by omega
    have h := update_attack_tick t.1 t.2 p hAlive hA ht (hdt t (List.mem_cons_self t rest))
    rw [if_neg hnot, if_neg hnot] at h
    have hrec := ih (update t.1 t.2 p) h.1 h.2.2.2 (by rw [h.2.1])
      (fun u hu => hdt u (List.mem_cons_of_mem t hu)) (by rw [h.2.2.1]; omega)
    have hstep : p.updatesWith (t :: rest) = (update t.1 t.2 p).updatesWith rest := rfl
    rw [hstep]
    refine ⟨hrec.1, hrec.2.1, hrec.2.2.1, ?_⟩
    rw [hrec.2.2.2, h.2.2.1]
    simp only [List.length_cons]
    omega

end Player

/-- C20: from a living player that is not attacking and has `frameTime ≥ 0`, after
`handleAttack` and ten `update` calls with `deltaTime ≥ attackSpeed` each (any
`isOnFloor` values), `isAttacking` is true after each of the first nine calls and false
after the tenth, with `attackFrame = 0`; a following `handleAttack` starts a new attack. -/
theorem attack_ends_on_tenth_update (s : Player) (ticks : List (ℚ × Bool))
    (playerScreenX : ℚ) (event : ClickEvent) (hAlive : s.isDead = false)
    (hIdle : s.isAttacking = false) (hTime : 0 ≤ s.frameTime) (hLen : ticks.length = 10)
    (hdt : ∀ t ∈ ticks, Player.attackSpeed ≤ t.1) :
    (∀ k : ℕ, k ≤ 9 →
        ((s.handleAttack playerScreenX event).updatesWith (ticks.take k)).isAttacking = true ∧
          ((s.handleAttack playerScreenX event).updatesWith (ticks.take k)).attackFrame = k) ∧
      ((s.handleAttack playerScreenX event).updatesWith ticks).isAttacking = false ∧
      ((s.handleAttack playerScreenX event).updatesWith ticks).attackFrame = 0 ∧
      (∀ (x : ℚ) (e : ClickEvent),
        (((s.handleAttack playerScreenX event).updatesWith ticks).handleAttack x e).isAttacking
          = true) := by
  have hs := Player.handleAttack_starts playerScreenX event s hIdle
  have hstart : (s.handleAttack playerScreenX event).isDead = false ∧
      (s.handleAttack playerScreenX event).isAttacking = true ∧
      (s.handleAttack playerScreenX event).frameTime = s.frameTime ∧
      (s.handleAttack playerScreenX event).attackFrame = 0 :=
    ⟨hs.2.2.1.trans hAlive, hs.1, hs.2.2.2, hs.2.1⟩
  have hfirst : ∀ k : ℕ, k ≤ 9 →
      ((s.handleAttack playerScreenX event).updatesWith (ticks.take k)).isDead = false ∧
        ((s.handleAttack playerScreenX event).updatesWith (ticks.take k)).isAttacking = true ∧
        0 ≤ ((s.handleAttack playerScreenX event).updatesWith (ticks.take k)).frameTime ∧
        ((s.handleAttack playerScreenX event).updatesWith (ticks.take k)).attackFrame = k := by
    intro k hk
    have hl : (ticks.take k).length = k := by
      rw [List.length_take, hLen]
      omega
    have h := Player.updatesWith_attack_progress (ticks.take k)
      (s.handleAttack playerScreenX event) hstart.1 hstart.2.1 (by rw [hstart.2.2.1]; exact hTime)
      (fun t ht => hdt t (List.mem_of_mem_take ht)) (by rw [hstart.2.2.2, hl]; omega)
    rw [hstart.2.2.2, hl] at h
    simpa using h
  obtain ⟨t, ht⟩ : ∃ t, ticks.drop 9 = [t] := by
    have hl : (ticks.drop 9).length = 1 := by
      rw [List.length_drop, hLen]
    match hm : ticks.drop 9, hl with
    | [t], _ => exact ⟨t, rfl⟩
  have hsplit : ticks = ticks.take 9 ++ [t] := by
    rw [← ht, List.take_append_drop]
  have hmem : t ∈ ticks := by
    rw [hsplit]
    simp
  have h9 := hfirst 9 (le_refl 9)
  have hlast := Player.update_attack_tick t.1 t.2
    ((s.handleAttack playerScreenX event).updatesWith (ticks.take 9)) h9.1 h9.2.1 h9.2.2.1
    (hdt t hmem)
  have hall : (s.handleAttack playerScreenX event).updatesWith ticks =
      Player.update t.1 t.2 ((s.handleAttack playerScreenX event).updatesWith (ticks.take 9)) := by
    conv_lhs => rw [hsplit]
    rw [Player.updatesWith_append]
    rfl
  have hend : ((s.handleAttack playerScreenX event).updatesWith ticks).isAttacking = false := by
    rw [hall, hlast.2.2.2, h9.2.2.2]
    rfl
  refine ⟨fun k hk => ⟨(hfirst k hk).2.1, (hfirst k hk).2.2.2⟩, hend, ?_, ?_⟩
  · rw [hall, hlast.2.2.1, h9.2.2.2]
    rfl
  · intro x e
    exact (Player.handleAttack_starts x e _ hend).1

/-- A fresh player clicks and is ticked ten times at the attack cadence on the floor:
the attack is over and the attack frame is back at zero. -/
theorem attack_ends_on_tenth_update_witness :
    Player.new.isDead = false ∧ Player.new.isAttacking = false ∧
      (0 : ℚ) ≤ Player.new.frameTime ∧
      (List.replicate 10 ((5 : ℚ) / 100, true)).length = 10 ∧
      ((Player.new.handleAttack 400 (ClickEvent.mk 500)).updatesWith
        (List.replicate 10 ((5 : ℚ) / 100, true))).isAttacking = false ∧
      ((Player.new.handleAttack 400 (ClickEvent.mk 500)).updatesWith
        (List.replicate 10 ((5 : ℚ) / 100, true))).attackFrame = 0 :=
  ⟨rfl, rfl, le_refl _, rfl,
    (attack_ends_on_tenth_update Player.new (List.replicate 10 ((5 : ℚ) / 100, true)) 400
      (ClickEvent.mk 500) rfl rfl (le_refl _) rfl
      (fun t ht => by rw [List.eq_of_mem_replicate ht]; exact le_refl _)).2.1,
    (attack_ends_on_tenth_update Player.new (List.replicate 10 ((5 : ℚ) / 100, true)) 400
      (ClickEvent.mk 500) rfl rfl (le_refl _) rfl
      (fun t ht => by rw [List.eq_of_mem_replicate ht]; exact le_refl _)).2.2.1⟩

namespace Player

/-! ### Grounding -/

theorem updateDead_isGrounded (dt : ℚ) (s : Player) :
    (updateDead dt s).isGrounded = s.isGrounded := by
  unfold updateDead
  dsimp only
  split_ifs <;> rfl

/-- Whether dead or alive, `update` keeps a grounded player grounded. -/
theorem update_keeps_isGrounded (dt : ℚ) (b : Bool) (s : Player) (hG : s.isGrounded = true) :
    (update dt b s).isGrounded = true := by
  by_cases hD : s.isDead = true
  · rw [update_dead dt b s hD, updateDead_isGrounded]
    exact hG
  · have hD2 : s.isDead = false := by simpa using hD
    rw [(update_alive_vertical dt b s hD2).2.1, hG]
    split_ifs <;> rfl

end Player

/-- C21: on a living player with `isGrounded = true`, `update` leaves `isGrounded` true
for every `deltaTime` and `isOnFloor`; so after an `update` off the floor the player is
in the air (`isOnAir` true) and a following `jump()` still sets `velocity.y = 10` and
clears `isGrounded`. No operation other than `jump()` turns `isGrounded` from true to
false, in any state. -/
theorem update_never_clears_isGrounded (deltaTime : ℚ) (isOnFloor : Bool) (s : Player)
    (hAlive : s.isDead = false) (hGrounded : s.isGrounded = true) :
    (s.update deltaTime isOnFloor).isGrounded = true ∧
      (s.update deltaTime false).isOnAir = true ∧
      (s.update deltaTime isOnFloor).jump.velocity.y = 10 ∧
      (s.update deltaTime isOnFloor).jump.isGrounded = false ∧
      (∀ (p : Player) (op : Player.Op), op ≠ Player.Op.jump → p.isGrounded = true →
        (p.step op).isGrounded = true) := by
  have hU := Player.update_keeps_isGrounded deltaTime isOnFloor s hGrounded
  refine ⟨hU, ?_, ?_, ?_, ?_⟩
  · rw [Player.update_alive_isOnAir deltaTime false s hAlive]
    simp
  · simp [Player.jump, hU]
  · simp [Player.jump, hU]
  · intro p op hop hG
    cases op with
    | update dt b => exact Player.update_keeps_isGrounded dt b p hG
    | jump => exact absurd rfl hop
    | startMoving d => exact hG
    | stopMoving d => exact hG
    | handleAttack x e =>
      simp only [Player.step, Player.handleAttack]
      split_ifs <;> exact hG
    | die =>
      simp only [Player.step, Player.die]
      split_ifs <;> exact hG
    | shiftKeyDown => exact hG
    | shiftKeyUp => exact hG

/-- A fresh player falls for one tick and lands on the next, so it is alive and
grounded; after a further tick off the floor it is in the air, still grounded, and
`jump()` launches it with `velocity.y = 10`. -/
theorem update_never_clears_isGrounded_witness :
    ((Player.new.update (1 / 10) false).update (1 / 10) true).isDead = false ∧
      ((Player.new.update (1 / 10) false).update (1 / 10) true).isGrounded = true ∧
      (((Player.new.update (1 / 10) false).update (1 / 10) true).update (1 / 10) false).isGrounded = true ∧
      (((Player.new.update (1 / 10) false).update (1 / 10) true).update (1 / 10) false).isOnAir = true ∧
      (((Player.new.update (1 / 10) false).update (1 / 10) true).update (1 / 10) false).jump.velocity.y = 10 :=
  ⟨by decide!, by decide!,
    (update_never_clears_isGrounded (1 / 10) false ((Player.new.update (1 / 10) false).update (1 / 10) true) (by decide!) (by decide!)).1,
    (update_never_clears_isGrounded (1 / 10) false ((Player.new.update (1 / 10) false).update (1 / 10) true) (by decide!) (by decide!)).2.1,
    (update_never_clears_isGrounded (1 / 10) false ((Player.new.update (1 / 10) false).update (1 / 10) true) (by decide!) (by decide!)).2.2.1⟩

end Demogame
